import Mathlib

/-
Verification of the dcgoss orchestration tool (a docker-compose wrapper for
the goss validation binary).  The development shallowly embeds the Python
sources:

  * src/dcgoss/docker_compose.py  (command construction, thin wrappers)
  * src/dcgoss/dcgoss.py          (startup polling, validate/retry loop,
                                   shutdown, run and edit entry points,
                                   file staging)

External effects (wall-clock time, subprocess exit codes and output, the
container state reported by the container engine, keyboard interrupts) are
supplied by an oracle environment indexed by a global operation counter, so
every theorem quantifies over all possible behaviours of the outside world.
-/

set_option linter.unusedVariables false

/-- Exceptions of the embedded program.  RuntimeError, TimeoutError,
FileNotFoundError and TypeError are Python Exception subclasses;
KeyboardInterrupt and SystemExit derive only from BaseException. -/
inductive Exc : Type where
  | runtimeError (msg : String)
  | timeoutError (msg : String)
  | fileNotFound (msg : String)
  | typeError
  | keyboardInterrupt
  | systemExit (code : Int)
deriving DecidableEq, Repr

/-- Whether an exception is caught by a Python handler for Exception. -/
def Exc.isException : Exc → Bool
  | .runtimeError _ => true
  | .timeoutError _ => true
  | .fileNotFound _ => true
  | .typeError => true
  | .keyboardInterrupt => false
  | .systemExit _ => false

/-- Python list.insert: inserts before position i, clamping i to the length. -/
def pyInsert {α : Type} (l : List α) (i : Nat) (x : α) : List α :=
  List.take i l ++ x :: List.drop i l

/-- Python test v.lower() in the list of the strings 1 and true, applied to an
optional environment-variable value (absent means false).  This is the check
used for NO_COLOR (docker_compose.py line 60, dcgoss.py line 341) and NO_LOGS
(dcgoss.py line 292). -/
def lowerIn1True : Option String → Bool
  | none => false
  | some v => (v.toLower == "1") || (v.toLower == "true")

/-- Python str.rstrip on the strings produced here: drop trailing whitespace. -/
def pyRstrip (s : String) : String :=
  String.mk ((s.data.reverse.dropWhile Char.isWhitespace).reverse)

/-- Python str.splitlines for line-feed separated text (the only separator the
modelled subprocess output uses). -/
def pySplitlines (s : String) : List String :=
  if s = "" then []
  else
    let parts := s.splitOn "\n"
    if s.endsWith "\n" then parts.dropLast else parts

/-- DockerCompose.prepare_cmd (docker_compose.py lines 41-63): successive
list.insert calls build the fixed argument prefix, and --no-ansi is inserted
at position 7 when NO_COLOR lowercases to 1 or true.  binary is the resolved
docker-compose binary path, path the project directory; self.file is
path/docker-compose.yaml (docker_compose.py line 26). -/
def prepareCmd (binary path : String) (noColor : Option String)
    (args : List String) : List String :=
  let cmd := args
  let cmd := pyInsert cmd 0 binary
  let cmd := pyInsert cmd 1 "--project-name"
  let cmd := pyInsert cmd 2 "goss"
  let cmd := pyInsert cmd 3 "--project-directory"
  let cmd := pyInsert cmd 4 path
  let cmd := pyInsert cmd 5 "--file"
  let cmd := pyInsert cmd 6 (path ++ "/docker-compose.yaml")
  if lowerIn1True noColor then pyInsert cmd 7 "--no-ansi" else cmd

/-- Command issued by DockerCompose._execute_cmd and _execute_cmd_pipe: both
call prepare_cmd on their arguments (docker_compose.py lines 67, 81). -/
def executeCmdOf (binary path : String) (noColor : Option String)
    (args : List String) : List String :=
  prepareCmd binary path noColor args

/-- Arguments of DockerCompose.up (docker_compose.py lines 91-95). -/
def upArgs : Option String → List String
  | some svc => ["up", "-d", svc]
  | none => ["up", "-d"]

/-- Arguments of DockerCompose.down (line 101). -/
def downArgs : List String := ["down", "--volumes"]

/-- Arguments of DockerCompose.start (lines 106-110). -/
def startArgs : Option String → List String
  | some svc => ["start", svc]
  | none => ["start"]

/-- Arguments of DockerCompose.stop (lines 115-119). -/
def stopArgs : Option String → List String
  | some svc => ["stop", svc]
  | none => ["stop"]

/-- Arguments of DockerCompose.restart (lines 124-128). -/
def restartArgs : Option String → List String
  | some svc => ["restart", svc]
  | none => ["restart"]

/-- Arguments of DockerCompose.exec and exec_pipe (lines 133-137). -/
def execArgs (svc : String) (rest : List String) : List String :=
  "exec" :: svc :: rest

/-- Arguments of DockerCompose.log (lines 139-143). -/
def logArgs : Option String → List String
  | some svc => ["logs", svc]
  | none => ["logs"]

/-- Arguments of DockerCompose.get_services (line 149). -/
def getServicesArgs : List String := ["ps", "--services"]

/-- Arguments of DockerCompose.get_container_id (line 155). -/
def getContainerIdArgs (svc : String) : List String := ["ps", "--quiet", svc]

/-- Arguments of DockerCompose.is_running (line 161). -/
def isRunningArgs (svc : String) : List String := ["top", svc]

/-- The fixed prefix every docker-compose invocation starts with. -/
def composePrefix (binary path : String) : List String :=
  [binary, "--project-name", "goss", "--project-directory", path,
   "--file", path ++ "/docker-compose.yaml"]

/-- C10: every docker-compose command issued by any DockerCompose operation is
the resolved binary followed by the fixed prefix naming the goss project, the
project directory and the compose file, with --no-ansi appended to the prefix
exactly when NO_COLOR lowercases to 1 or true, and the operation arguments
after that.  The second group of conjuncts instantiates this for each
operation of docker_compose.py. -/
theorem prepare_cmd_fixed_prefix (binary path : String) (noColor : Option String) :
    (∀ args : List String,
      executeCmdOf binary path noColor args =
        composePrefix binary path
          ++ (if lowerIn1True noColor then ["--no-ansi"] else []) ++ args) ∧
    (∀ svc, executeCmdOf binary path noColor (upArgs svc) =
        composePrefix binary path
          ++ (if lowerIn1True noColor then ["--no-ansi"] else []) ++ upArgs svc) ∧
    (executeCmdOf binary path noColor downArgs =
        composePrefix binary path
          ++ (if lowerIn1True noColor then ["--no-ansi"] else []) ++ downArgs) ∧
    (∀ svc, executeCmdOf binary path noColor (stopArgs svc) =
        composePrefix binary path
          ++ (if lowerIn1True noColor then ["--no-ansi"] else []) ++ stopArgs svc) ∧
    (∀ svc, executeCmdOf binary path noColor (restartArgs svc) =
        composePrefix binary path
          ++ (if lowerIn1True noColor then ["--no-ansi"] else []) ++ restartArgs svc) ∧
    (∀ svc rest, executeCmdOf binary path noColor (execArgs svc rest) =
        composePrefix binary path
          ++ (if lowerIn1True noColor then ["--no-ansi"] else []) ++ execArgs svc rest) ∧
    (∀ svc, executeCmdOf binary path noColor (logArgs svc) =
        composePrefix binary path
          ++ (if lowerIn1True noColor then ["--no-ansi"] else []) ++ logArgs svc) ∧
    (executeCmdOf binary path noColor getServicesArgs =
        composePrefix binary path
          ++ (if lowerIn1True noColor then ["--no-ansi"] else []) ++ getServicesArgs) ∧
    (∀ svc, executeCmdOf binary path noColor (getContainerIdArgs svc) =
        composePrefix binary path
          ++ (if lowerIn1True noColor then ["--no-ansi"] else []) ++ getContainerIdArgs svc) := by
  have base : ∀ args : List String,
      executeCmdOf binary path noColor args =
        composePrefix binary path
          ++ (if lowerIn1True noColor then ["--no-ansi"] else []) ++ args := by
    intro args
    by_cases h : lowerIn1True noColor = true
    · simp [executeCmdOf, prepareCmd, pyInsert, composePrefix, h]
    · simp [executeCmdOf, prepareCmd, pyInsert, composePrefix, h]
  exact ⟨base, fun svc => base _, base _, fun svc => base _, fun svc => base _,
    fun svc rest => base _, fun svc => base _, base _, fun svc => base _⟩

/-- A host or temp-directory file: its permission mode bits and an abstract
content identifier.  shutil.copy copies both the data and the permission
mode of the source onto the destination. -/
structure HFile where
  mode : Nat
  content : Nat
deriving DecidableEq, Repr

/-- A file system fragment: paths to optional files. -/
abbrev FS := String → Option HFile

/-- Pointwise update of a file system. -/
def FS.setOpt (fs : FS) (p : String) (f : Option HFile) : FS :=
  fun q => if q = p then f else fs q

/-- Python os.path.isfile. -/
def pyIsfile (fs : FS) (p : String) : Bool := (fs p).isSome

/-- The temp-directory paths DCGoss._copy_out touches, with the anonymous
mkdtemp directory written tmp.  docker cp materializes the container /goss
directory under tmp/goss. -/
def tempGoss : String := "tmp/goss/goss"

/-- Temp path of the copied-out goss.yaml. -/
def tempGossYaml : String := "tmp/goss/goss.yaml"

/-- Temp path of the copied-out goss_vars.yaml. -/
def tempVarsYaml : String := "tmp/goss/goss_vars.yaml"

/-- Temp path of the copied-out goss_wait.yaml. -/
def tempWaitYaml : String := "tmp/goss/goss_wait.yaml"

/-- Effect of docker cp container:/goss tmp (dcgoss.py line 250): the staged
names under the container /goss directory (the goss binary and the three
configuration files, the only names _copy_out later reads) appear under
tmp/goss with container-determined mode and content, given by the oracle
cont. -/
def dockerCpOutTemp (fs : FS) (cont : String → Option HFile) : FS :=
  (((fs.setOpt tempGoss (cont "goss")).setOpt tempGossYaml
      (cont "goss.yaml")).setOpt tempVarsYaml
      (cont "goss_vars.yaml")).setOpt tempWaitYaml (cont "goss_wait.yaml")

/-- Effect of rmtree on the temp directory (dcgoss.py line 286). -/
def clearTemp (fs : FS) : FS :=
  (((fs.setOpt tempGoss none).setOpt tempGossYaml none).setOpt
      tempVarsYaml none).setOpt tempWaitYaml none

/-- Python os.chmod: set the mode of an existing file, raising
FileNotFoundError when the path does not exist. -/
def pyChmod (fs : FS) (p : String) (m : Nat) : Except Exc FS :=
  match fs p with
  | none => .error (.fileNotFound p)
  | some g => .ok (fs.setOpt p (some { g with mode := m }))

/-- os.stat(hostPath).st_mode followed by os.chmod(tempPath, mode)
(dcgoss.py lines 253-255): stat raises when the host file is missing. -/
def statChmod (fs : FS) (hostPath tempPath : String) : Except Exc FS :=
  match fs hostPath with
  | none => .error (.fileNotFound hostPath)
  | some h => pyChmod fs tempPath h.mode

/-- The guarded restore for the optional files (dcgoss.py lines 258-267):
only when os.path.isfile(hostPath) is the mode read and applied. -/
def restoreMode (fs : FS) (hostPath tempPath : String) : Except Exc FS :=
  match fs hostPath with
  | none => .ok fs
  | some h => pyChmod fs tempPath h.mode

/-- shutil.copy: copy data and permission mode of src onto dst, raising when
src is missing. -/
def pyCopy (fs : FS) (src dst : String) : Except Exc FS :=
  match fs src with
  | none => .error (.fileNotFound src)
  | some f => .ok (fs.setOpt dst (some f))

/-- The guarded copy-back for the optional files (dcgoss.py lines 274-281). -/
def copyIfHost (fs : FS) (tempPath hostPath : String) : Except Exc FS :=
  match fs hostPath with
  | none => .ok fs
  | some _ => pyCopy fs tempPath hostPath

/-- DCGoss._copy_out (dcgoss.py lines 243-286): copy the /goss directory out
of the container, restore onto the temp copies the modes the host files
currently carry, copy the temp copies over the host files (shutil.copy also
transfers the just-restored mode), and remove the temp directory.  cpExit is
the docker cp exit code (docker.py lines 49-53 raise on a positive code). -/
def copyOut (gossFile gossVars gossWait : String) (cpExit : Int)
    (cont : String → Option HFile) (fs0 : FS) : Except Exc FS :=
  if cpExit > 0 then .error (.runtimeError "docker cp failed") else
  (statChmod (dockerCpOutTemp fs0 cont) gossFile tempGossYaml).bind fun fs2 =>
  (restoreMode fs2 gossVars tempVarsYaml).bind fun fs3 =>
  (restoreMode fs3 gossWait tempWaitYaml).bind fun fs4 =>
  (pyCopy fs4 tempGossYaml gossFile).bind fun fs5 =>
  (copyIfHost fs5 tempVarsYaml gossVars).bind fun fs6 =>
  (copyIfHost fs6 tempWaitYaml gossWait).bind fun fs7 =>
  .ok (clearTemp fs7)

/-- Lookup through a pointwise update at a different key. -/
theorem FS.setOpt_ne (fs : FS) (p q : String) (f : Option HFile) (h : q ≠ p) :
    FS.setOpt fs p f q = fs q := by
  simp [FS.setOpt, h]

/-- Lookup through a pointwise update at the same key. -/
theorem FS.setOpt_self (fs : FS) (p : String) (f : Option HFile) :
    FS.setOpt fs p f p = f := by
  simp [FS.setOpt]

/-- Inversion for Except.bind returning ok. -/
theorem exceptBind_ok {α β ε : Type} {x : Except ε α} {f : α → Except ε β} {b : β}
    (h : x.bind f = .ok b) : ∃ a, x = .ok a ∧ f a = .ok b := by
  cases x with
  | error e => simp [Except.bind] at h
  | ok a => exact ⟨a, rfl, by simpa [Except.bind] using h⟩

/-- statChmod succeeds only by reading the host mode and applying it to the
temp copy. -/
theorem statChmod_ok {fs fs'' : FS} {host tp : String}
    (h : statChmod fs host tp = .ok fs'') :
    ∃ hf g, fs host = some hf ∧ fs tp = some g ∧
      fs'' = fs.setOpt tp (some { g with mode := hf.mode }) := by
  unfold statChmod at h
  rcases hh : fs host with _ | hf <;> rw [hh] at h
  · cases h
  · unfold pyChmod at h
    rcases ht : fs tp with _ | g <;> rw [ht] at h
    · cases h
    · exact ⟨hf, g, rfl, rfl, by cases h; rfl⟩

/-- restoreMode changes at most the temp path. -/
theorem restoreMode_agree {fs fs'' : FS} {host tp : String}
    (h : restoreMode fs host tp = .ok fs'') :
    ∀ q, q ≠ tp → fs'' q = fs q := by
  unfold restoreMode at h
  rcases hh : fs host with _ | hf <;> rw [hh] at h
  · cases h; intro q _; rfl
  · unfold pyChmod at h
    rcases ht : fs tp with _ | g <;> rw [ht] at h
    · cases h
    · cases h; intro q hq; exact FS.setOpt_ne _ _ _ _ hq

/-- When the host file exists, a successful restoreMode leaves the temp copy
present with exactly the host mode. -/
theorem restoreMode_mode {fs fs'' : FS} {host tp : String} {hf : HFile}
    (hh : fs host = some hf) (h : restoreMode fs host tp = .ok fs'') :
    ∃ g, fs'' tp = some g ∧ g.mode = hf.mode := by
  unfold restoreMode at h
  rw [hh] at h
  unfold pyChmod at h
  rcases ht : fs tp with _ | g <;> rw [ht] at h
  · cases h
  · cases h; exact ⟨_, FS.setOpt_self _ _ _, rfl⟩

/-- pyCopy succeeds only by copying the source file (data and mode) over the
destination. -/
theorem pyCopy_ok {fs fs'' : FS} {src dst : String}
    (h : pyCopy fs src dst = .ok fs'') :
    ∃ f, fs src = some f ∧ fs'' = fs.setOpt dst (some f) := by
  unfold pyCopy at h
  rcases hs : fs src with _ | f <;> rw [hs] at h
  · cases h
  · exact ⟨f, rfl, by cases h; rfl⟩

/-- copyIfHost changes at most the host path. -/
theorem copyIfHost_agree {fs fs'' : FS} {tp host : String}
    (h : copyIfHost fs tp host = .ok fs'') :
    ∀ q, q ≠ host → fs'' q = fs q := by
  unfold copyIfHost at h
  rcases hh : fs host with _ | f <;> rw [hh] at h
  · cases h; intro q _; rfl
  · obtain ⟨g, hg, rfl⟩ := pyCopy_ok h
    intro q hq; exact FS.setOpt_ne _ _ _ _ hq

/-- When the host file exists, a successful copyIfHost puts the temp copy at
the host path. -/
theorem copyIfHost_mode {fs fs'' : FS} {tp host : String} {f g : HFile}
    (hh : fs host = some f) (ht : fs tp = some g)
    (h : copyIfHost fs tp host = .ok fs'') : fs'' host = some g := by
  unfold copyIfHost at h
  rw [hh] at h
  obtain ⟨g', hg', rfl⟩ := pyCopy_ok h
  rw [ht] at hg'; cases hg'
  exact FS.setOpt_self _ _ _

/-- C5: file staging preserves permissions across the container boundary.
When DCGoss._copy_out completes without raising, the goss.yaml host file, and
the goss_vars.yaml and goss_wait.yaml host files when they existed, carry the
same permission mode they had before being overwritten.  The distinctness
hypotheses say the three host configuration paths are pairwise distinct and
none of them lies inside the fresh temp directory. -/
theorem copy_out_preserves_modes
    (gossFile gossVars gossWait : String) (cpExit : Int)
    (cont : String → Option HFile) (fs0 fs' : FS)
    (hfv : gossFile ≠ gossVars) (hfw : gossFile ≠ gossWait)
    (hvw : gossVars ≠ gossWait)
    (htf : gossFile ≠ tempGoss ∧ gossFile ≠ tempGossYaml ∧
           gossFile ≠ tempVarsYaml ∧ gossFile ≠ tempWaitYaml)
    (htv : gossVars ≠ tempGoss ∧ gossVars ≠ tempGossYaml ∧
           gossVars ≠ tempVarsYaml ∧ gossVars ≠ tempWaitYaml)
    (htw : gossWait ≠ tempGoss ∧ gossWait ≠ tempGossYaml ∧
           gossWait ≠ tempVarsYaml ∧ gossWait ≠ tempWaitYaml)
    (h : copyOut gossFile gossVars gossWait cpExit cont fs0 = .ok fs') :
    ((fs' gossFile).map HFile.mode = (fs0 gossFile).map HFile.mode) ∧
    (pyIsfile fs0 gossVars = true →
      (fs' gossVars).map HFile.mode = (fs0 gossVars).map HFile.mode) ∧
    (pyIsfile fs0 gossWait = true →
      (fs' gossWait).map HFile.mode = (fs0 gossWait).map HFile.mode) := by
  classical
  obtain ⟨hf1, hf2, hf3, hf4⟩ := htf
  obtain ⟨hv1, hv2, hv3, hv4⟩ := htv
  obtain ⟨hw1, hw2, hw3, hw4⟩ := htw
  have e23 : tempGossYaml ≠ tempVarsYaml := by decide
  have e24 : tempGossYaml ≠ tempWaitYaml := by decide
  have e34 : tempVarsYaml ≠ tempWaitYaml := by decide
  unfold copyOut at h
  split at h
  · exact absurd h (by simp)
  · set fs1 := dockerCpOutTemp fs0 cont with hfs1
    have h1f : fs1 gossFile = fs0 gossFile := by
      simp [hfs1, dockerCpOutTemp, FS.setOpt_ne, hf1, hf2, hf3, hf4]
    have h1v : fs1 gossVars = fs0 gossVars := by
      simp [hfs1, dockerCpOutTemp, FS.setOpt_ne, hv1, hv2, hv3, hv4]
    have h1w : fs1 gossWait = fs0 gossWait := by
      simp [hfs1, dockerCpOutTemp, FS.setOpt_ne, hw1, hw2, hw3, hw4]
    obtain ⟨fs2, h2, hb⟩ := exceptBind_ok h
    obtain ⟨fs3, h3, hb⟩ := exceptBind_ok hb
    obtain ⟨fs4, h4, hb⟩ := exceptBind_ok hb
    obtain ⟨fs5, h5, hb⟩ := exceptBind_ok hb
    obtain ⟨fs6, h6, hb⟩ := exceptBind_ok hb
    obtain ⟨fs7, h7, hb⟩ := exceptBind_ok hb
    have hfin : fs' = clearTemp fs7 := by
      injection hb with hb; exact hb.symm
    subst hfin
    obtain ⟨f0, g0, hf0, hg0, hfs2⟩ := statChmod_ok h2
    subst hfs2
    rw [h1f] at hf0
    have h2f : ∀ q, q ≠ tempGossYaml →
        (fs1.setOpt tempGossYaml (some { g0 with mode := f0.mode })) q = fs1 q :=
      fun q hq => FS.setOpt_ne _ _ _ _ hq
    have h2ty : (fs1.setOpt tempGossYaml (some { g0 with mode := f0.mode }))
        tempGossYaml = some { g0 with mode := f0.mode } := FS.setOpt_self _ _ _
    have h4ty : fs4 tempGossYaml = some { g0 with mode := f0.mode } := by
      rw [restoreMode_agree h4 _ e24, restoreMode_agree h3 _ e23, h2ty]
    have h4f : fs4 gossFile = fs0 gossFile := by
      rw [restoreMode_agree h4 _ hf4, restoreMode_agree h3 _ hf3, h2f _ hf2, h1f]
    have h4v : fs4 gossVars = fs0 gossVars := by
      rw [restoreMode_agree h4 _ hv4, restoreMode_agree h3 _ hv3, h2f _ hv2, h1v]
    have h4w : fs4 gossWait = fs0 gossWait := by
      rw [restoreMode_agree h4 _ hw4, restoreMode_agree h3 _ hw3, h2f _ hw2, h1w]
    obtain ⟨gf, hgf, hfs5⟩ := pyCopy_ok h5
    subst hfs5
    rw [h4ty] at hgf
    have hgf' : gf = { g0 with mode := f0.mode } := by injection hgf with hgf; exact hgf.symm
    subst hgf'
    have h5file : (fs4.setOpt gossFile (some { g0 with mode := f0.mode })) gossFile =
        some { g0 with mode := f0.mode } := FS.setOpt_self _ _ _
    refine ⟨?_, ?_, ?_⟩
    · have hff : clearTemp fs7 gossFile = some { g0 with mode := f0.mode } := by
        rw [clearTemp, FS.setOpt_ne _ _ _ _ hf4, FS.setOpt_ne _ _ _ _ hf3,
          FS.setOpt_ne _ _ _ _ hf2, FS.setOpt_ne _ _ _ _ hf1,
          copyIfHost_agree h7 _ hfw, copyIfHost_agree h6 _ hfv, h5file]
      rw [hff, hf0]; simp
    · intro hvx
      rcases hvf : fs0 gossVars with _ | vf
      · rw [pyIsfile, hvf] at hvx; simp at hvx
      · obtain ⟨gv, hgv, hgvm⟩ := restoreMode_mode (by rw [h2f _ hv2, h1v, hvf]) h3
        have h5v : (fs4.setOpt gossFile (some { g0 with mode := f0.mode })) gossVars =
            some vf := by rw [FS.setOpt_ne _ _ _ _ (Ne.symm hfv), h4v, hvf]
        have h5tv : (fs4.setOpt gossFile (some { g0 with mode := f0.mode })) tempVarsYaml =
            some gv := by
          rw [FS.setOpt_ne _ _ _ _ (Ne.symm hf3),
            restoreMode_agree h4 _ e34, hgv]
        have h6v : fs6 gossVars = some gv := copyIfHost_mode h5v h5tv h6
        have hfv' : clearTemp fs7 gossVars = some gv := by
          rw [clearTemp, FS.setOpt_ne _ _ _ _ hv4, FS.setOpt_ne _ _ _ _ hv3,
            FS.setOpt_ne _ _ _ _ hv2, FS.setOpt_ne _ _ _ _ hv1,
            copyIfHost_agree h7 _ hvw, h6v]
        rw [hfv']; simp [hgvm]
    · intro hwx
      rcases hwf : fs0 gossWait with _ | wf
      · rw [pyIsfile, hwf] at hwx; simp at hwx
      · obtain ⟨gw, hgw, hgwm⟩ := restoreMode_mode (by
          rw [restoreMode_agree h3 _ hw3, h2f _ hw2, h1w, hwf]) h4
        have h5w : (fs4.setOpt gossFile (some { g0 with mode := f0.mode })) gossWait =
            some wf := by rw [FS.setOpt_ne _ _ _ _ (Ne.symm hfw), h4w, hwf]
        have h5tw : (fs4.setOpt gossFile (some { g0 with mode := f0.mode })) tempWaitYaml =
            some gw := by rw [FS.setOpt_ne _ _ _ _ (Ne.symm hf4), hgw]
        have h6w : fs6 gossWait = some wf := by
          rw [copyIfHost_agree h6 _ (Ne.symm hvw), h5w]
        have h6tw : fs6 tempWaitYaml = some gw := by
          rw [copyIfHost_agree h6 _ (Ne.symm hv4), h5tw]
        have h7w : fs7 gossWait = some gw := copyIfHost_mode h6w h6tw h7
        have hfw' : clearTemp fs7 gossWait = some gw := by
          rw [clearTemp, FS.setOpt_ne _ _ _ _ hw4, FS.setOpt_ne _ _ _ _ hw3,
            FS.setOpt_ne _ _ _ _ hw2, FS.setOpt_ne _ _ _ _ hw1, h7w]
        rw [hfw']; simp [hgwm]

/-- Parsed container state as read out of the docker inspect JSON: the
optional Running and Restarting flags and the optional parsed StartedAt
timestamp (dcgoss.py lines 158-186 look only at these keys; a missing key is
modelled by none). -/
structure CState where
  running : Option Bool
  restarting : Option Bool
  startedAt : Option Int
deriving DecidableEq, Repr

/-- Observable events of a program execution, in order. -/
inductive Event : Type where
  | sleep (d : Rat)
  | compose (args : List String)
  | dockerCp (src tgt : String)
  | writeLog (path : String)
  | makedirs (path : String)
  | shutdownEnter (forced : Bool)
  | subprocessCall (args : List String)
deriving DecidableEq, Repr

/-- Oracle environment: the outside world, indexed by a global operation
counter.  timeAt is the value of the k-th time() call, ki whether a
KeyboardInterrupt is delivered at the k-th external operation, cmdExit and
cmdOut the exit code and captured stdout of the k-th subprocess, inspect the
parsed state dict of the k-th docker inspect (none for an empty dict or a
dict without the State key; Docker.inspect itself is not present under
src/docker.py and is modelled from the spec as this oracle query). -/
structure Env where
  timeAt : Nat → Rat
  ki : Nat → Bool
  cmdExit : Nat → Int
  cmdOut : Nat → String
  inspect : Nat → Option CState

/-- Program state: the operation counter, the DCGoss attributes start_time
and forced_shutdown (dcgoss.py lines 106-107), the number of entries into
_shutdown, whether the log directory exists, and the event trace. -/
structure St where
  ops : Nat
  start_time : Rat
  forced_shutdown : Bool
  shutdownCalls : Nat
  logDirExists : Bool
  trace : List Event
deriving DecidableEq, Repr

/-- Result of a computation: a value, a raised exception, or exhaustion of
the step fuel (modelling divergence). -/
inductive Res (α : Type) : Type where
  | ok (a : α)
  | exc (e : Exc)
  | spin
deriving DecidableEq, Repr

/-- A computation: given the oracle and the current state, produce the next
state and a result. -/
def M (α : Type) : Type := Env → St → St × Res α

/-- Sequencing, short-circuiting on exceptions and fuel exhaustion. -/
def M.bind {α β : Type} (m : M α) (f : α → M β) : M β := fun env s =>
  match m env s with
  | (s', Res.ok a) => f a env s'
  | (s', Res.exc e) => (s', Res.exc e)
  | (s', Res.spin) => (s', Res.spin)

/-- Return a value without touching the world. -/
def M.pure {α : Type} (a : α) : M α := fun _ s => (s, Res.ok a)

/-- Raise an exception. -/
def M.throw {α : Type} (e : Exc) : M α := fun _ s => (s, Res.exc e)

/-- Fuel exhaustion. -/
def M.spinOut {α : Type} : M α := fun _ s => (s, Res.spin)

/-- Advance the operation counter. -/
def incOps (s : St) : St := { s with ops := s.ops + 1 }

/-- The time() primitive.  Like every external operation it may instead
deliver a KeyboardInterrupt, as directed by the oracle. -/
def opTime : M Rat := fun env s =>
  if env.ki s.ops then (incOps s, Res.exc .keyboardInterrupt)
  else (incOps s, Res.ok (env.timeAt s.ops))

/-- The sleep(d) primitive, recorded in the trace. -/
def opSleep (d : Rat) : M Unit := fun env s =>
  if env.ki s.ops then (incOps s, Res.exc .keyboardInterrupt)
  else ({ incOps s with trace := s.trace ++ [Event.sleep d] }, Res.ok ())

/-- An external command run for its exit code (_execute_cmd and the raw
subprocess calls), recorded in the trace. -/
def opCmd (ev : Event) : M Int := fun env s =>
  if env.ki s.ops then (incOps s, Res.exc .keyboardInterrupt)
  else ({ incOps s with trace := s.trace ++ [ev] }, Res.ok (env.cmdExit s.ops))

/-- An external command run with captured output (_execute_cmd_pipe). -/
def opCmdPipe (ev : Event) : M (Int × String) := fun env s =>
  if env.ki s.ops then (incOps s, Res.exc .keyboardInterrupt)
  else ({ incOps s with trace := s.trace ++ [ev] },
    Res.ok (env.cmdExit s.ops, env.cmdOut s.ops))

/-- Modelled from the spec: Docker.inspect is called by dcgoss.py (lines 163
and 182) but absent from src/docker.py; per the spec the tool inspects the
container engine JSON output, so the parsed state dict is an oracle query. -/
def opInspect (cid : String) : M (Option CState) := fun env s =>
  if env.ki s.ops then (incOps s, Res.exc .keyboardInterrupt)
  else (incOps s, Res.ok (env.inspect s.ops))

/-- Opening a log file for writing (dcgoss.py line 301). -/
def opWrite (p : String) : M Unit := fun env s =>
  if env.ki s.ops then (incOps s, Res.exc .keyboardInterrupt)
  else ({ incOps s with trace := s.trace ++ [Event.writeLog p] }, Res.ok ())

/-- os.makedirs on the log path (dcgoss.py line 295). -/
def opMakedirs (p : String) : M Unit := fun env s =>
  if env.ki s.ops then (incOps s, Res.exc .keyboardInterrupt)
  else
    ({ incOps s with
        trace := s.trace ++ [Event.makedirs p]
        logDirExists := true },
      Res.ok ())

/-- Read self.start_time (an attribute access, not an external operation). -/
def readStartTime : M Rat := fun _ s => (s, Res.ok s.start_time)

/-- Write self.start_time (dcgoss.py line 117). -/
def setStartTime (t : Rat) : M Unit := fun _ s =>
  ({ s with start_time := t }, Res.ok ())

/-- Read whether the log directory exists (os.path.exists at line 294,
modelled as state because makedirs then creates it). -/
def readLogDirExists : M Bool := fun _ s => (s, Res.ok s.logDirExists)

/-- The DCGoss run-time configuration: the resolved retry values (lines
66-95), whether the optional variables and wait files are present, the
NO_COLOR and NO_LOGS environment values, the two goss argument lists
(GOSS_WAIT_OPTS and GOSS_OPTS after str.split, lines 375-378) and the log
path. -/
structure Cfg where
  retry_timeout : Rat
  retry_interval : Rat
  initial_startup : Rat
  goss_vars_isfile : Bool
  goss_wait_isfile : Bool
  no_color : Option String
  no_logs : Option String
  goss_wait_opts : List String
  goss_opts : List String
  log_path : String

/-- DockerCompose.up for a named service (lines 91-98): raise RuntimeError
on a positive exit code. -/
def composeUp (svc : String) : M Unit :=
  M.bind (opCmd (Event.compose ["up", "-d", svc])) fun e =>
    if e > 0 then M.throw (.runtimeError "docker-compose up failed") else M.pure ()

/-- DockerCompose.down (lines 100-104). -/
def composeDown : M Unit :=
  M.bind (opCmd (Event.compose ["down", "--volumes"])) fun e =>
    if e > 0 then M.throw (.runtimeError "docker-compose down failed") else M.pure ()

/-- DockerCompose.stop with no service (lines 115-122, called at line 308). -/
def composeStop : M Unit :=
  M.bind (opCmd (Event.compose ["stop"])) fun e =>
    if e > 0 then M.throw (.runtimeError "docker-compose stop failed") else M.pure ()

/-- DockerCompose.restart for a named service (lines 124-131). -/
def composeRestart (svc : String) : M Unit :=
  M.bind (opCmd (Event.compose ["restart", svc])) fun e =>
    if e > 0 then M.throw (.runtimeError "docker-compose restart failed") else M.pure ()

/-- DockerCompose.exec (line 133): exit code returned unchecked. -/
def composeExecSvc (svc : String) (args : List String) : M Int :=
  opCmd (Event.compose (["exec", svc] ++ args))

/-- DockerCompose.exec_pipe (line 136). -/
def composeExecPipeSvc (svc : String) (args : List String) : M (Int × String) :=
  opCmdPipe (Event.compose (["exec", svc] ++ args))

/-- DockerCompose.get_container_id (lines 154-158): the rstripped stdout on
exit code 0, None otherwise. -/
def composeGetContainerId (svc : String) : M (Option String) :=
  M.bind (opCmdPipe (Event.compose ["ps", "--quiet", svc])) fun r =>
    M.pure (if r.1 = 0 then some (pyRstrip r.2) else none)

/-- DockerCompose.get_services (lines 148-152). -/
def composeGetServices : M (List String) :=
  M.bind (opCmdPipe (Event.compose ["ps", "--services"])) fun r =>
    M.pure (if r.1 = 0 then pySplitlines r.2 else [])

/-- DockerCompose.log (lines 139-146): all stdout lines after the first on
exit code 0, the empty list otherwise. -/
def composeLog (svc : String) : M (List String) :=
  M.bind (opCmdPipe (Event.compose ["logs", svc])) fun r =>
    M.pure (if r.1 = 0 then (pySplitlines r.2).drop 1 else [])

/-- Docker.cp (docker.py lines 49-53): raise RuntimeError on positive exit. -/
def dockerCpCmd (src tgt : String) : M Unit :=
  M.bind (opCmd (Event.dockerCp src tgt)) fun e =>
    if e > 0 then M.throw (.runtimeError "docker cp failed") else M.pure ()

/-- Python truthiness of an optional string: None and the empty string are
falsy. -/
def truthy : Option String → Bool
  | none => false
  | some s => !(s == "")

/-- Python str() of an optional value, as used by format on a possibly-None
container id. -/
def pyStr : Option String → String
  | none => "None"
  | some s => s

/-- Whether the state dict denotes a running, non-restarting container
(dcgoss.py lines 164-175): an absent dict or key passes each check. -/
def serviceUpFromState : Option CState → Bool
  | none => true
  | some st =>
    if st.running = some false then false
    else if st.restarting = some true then false
    else true

/-- StartedAt of a state dict (dcgoss.py line 186). -/
def startedAtFromState : Option CState → Option Int
  | none => none
  | some st => st.startedAt

/-- DCGoss._is_service_up (lines 158-175): query the container id, inspect
it when truthy, and check the state flags. -/
def isServiceUp (svc : String) : M Bool :=
  M.bind (composeGetContainerId svc) fun cid =>
  M.bind (if truthy cid then opInspect (pyStr cid) else M.pure none) fun st =>
  M.pure (serviceUpFromState st)

/-- DCGoss._get_start_time (lines 177-186). -/
def getStartTimeSvc (svc : String) : M (Option Int) :=
  M.bind (composeGetContainerId svc) fun cid =>
  M.bind (if truthy cid then opInspect (pyStr cid) else M.pure none) fun st =>
  M.pure (startedAtFromState st)

/-- DCGoss._copy_in (lines 188-241) as seen from the container: the host
side stages files in a fresh temp directory (modelled in the file-system
section above) and the container-visible effect is the docker cp of that
directory to cid:/goss (line 236). -/
def copyInM (cid : String) : M Unit :=
  dockerCpCmd "tempdir" (cid ++ ":/goss")

/-- The remainder of a _startup loop iteration after the time() query
(dcgoss.py lines 131-152): check the timeout, poll the service, and when it
is up compare the start times around the initial_startup sleep and re-check
the service after one more second. -/
def startupIterRest (cfg : Cfg) (svc : String) (t : Rat) : M Bool :=
  M.bind readStartTime fun st =>
  if t - st > cfg.retry_timeout then
    M.throw (.timeoutError "Timeout reached while waiting for initial container startup")
  else
    M.bind (isServiceUp svc) fun up =>
    if !up then M.bind (opSleep 1) fun _ => M.pure false
    else
      M.bind (getStartTimeSvc svc) fun started1 =>
      M.bind (opSleep cfg.initial_startup) fun _ =>
      M.bind (getStartTimeSvc svc) fun started2 =>
      if started1 = started2 then
        M.bind (opSleep 1) fun _ =>
        M.bind (isServiceUp svc) fun up2 =>
        M.pure up2
      else M.pure false

/-- One iteration of the while True loop of DCGoss._startup (lines 129-152).
The returned boolean is true exactly when the loop breaks: the service was
up, the two start-time queries around the initial_startup sleep agreed, and
the service was still up after one more second. -/
def startupIterBody (cfg : Cfg) (svc : String) : M Bool :=
  M.bind opTime (startupIterRest cfg svc)

/-- The while True loop of DCGoss._startup, with fuel. -/
def startupLoop (cfg : Cfg) (svc : String) : Nat → M Unit
  | 0 => M.spinOut
  | fuel + 1 =>
    M.bind (startupIterBody cfg svc) fun brk =>
      if brk then M.pure () else startupLoop cfg svc fuel

/-- DCGoss._startup (lines 113-156): record the start time, remove previous
resources, bring the service up, poll until stable, then copy the goss
binary and configuration into the container. -/
def startup (cfg : Cfg) (svc : String) (fuel : Nat) : M Unit :=
  M.bind opTime fun t =>
  M.bind (setStartTime t) fun _ =>
  M.bind composeDown fun _ =>
  M.bind (composeUp svc) fun _ =>
  M.bind (startupLoop cfg svc fuel) fun _ =>
  M.bind (composeGetContainerId svc) fun cid =>
  copyInM (pyStr cid)

/-- The global goss arguments (dcgoss.py lines 325-329). -/
def gossArgsGlobal (cfg : Cfg) (gossFile : String) : List String :=
  ("--gossfile=/goss/" ++ gossFile) ::
    (if cfg.goss_vars_isfile then ["--vars=/goss/goss_vars.yaml"] else [])

/-- The remainder of a _run_goss_validate loop iteration after the time()
query (dcgoss.py lines 348-367): check the timeout, execute goss validate,
and on a positive exit sleep, re-check the service (restarting it when it is
down) and continue. -/
def validateIterRest (cfg : Cfg) (svc : String) (argsG gossArgs : List String)
    (t : Rat) : M Bool :=
  M.bind readStartTime fun st =>
  if t - st > cfg.retry_timeout then
    M.throw (.timeoutError "Timeout reached while waiting for all tests to pass")
  else
    M.bind (composeExecSvc svc (["/goss/goss"] ++ argsG ++ ["validate"] ++ gossArgs)) fun e =>
    if e > 0 then
      M.bind (opSleep cfg.retry_interval) fun _ =>
      M.bind (isServiceUp svc) fun up =>
      M.bind (if up then M.pure () else composeRestart svc) fun _ =>
      M.pure false
    else M.pure true

/-- One iteration of the while True loop of DCGoss._run_goss_validate
(lines 346-367).  The returned boolean is true exactly when the loop breaks:
the goss validate exit code was not positive. -/
def validateIterBody (cfg : Cfg) (svc : String) (argsG gossArgs : List String) : M Bool :=
  M.bind opTime (validateIterRest cfg svc argsG gossArgs)

/-- The while True loop of DCGoss._run_goss_validate, with fuel. -/
def validateLoop (cfg : Cfg) (svc : String) (argsG gossArgs : List String) : Nat → M Unit
  | 0 => M.spinOut
  | fuel + 1 =>
    M.bind (validateIterBody cfg svc argsG gossArgs) fun brk =>
      if brk then M.pure () else validateLoop cfg svc argsG gossArgs fuel

/-- DCGoss._run_goss_validate (lines 323-367): sleep, render the goss file
(raising RuntimeError on a positive exit), append the color flag, then run
the validate loop. -/
def runGossValidate (cfg : Cfg) (svc : String) (gossFile : String)
    (gossArgs : List String) (fuel : Nat) : M Unit :=
  M.bind (opSleep cfg.retry_interval) fun _ =>
  M.bind (composeExecPipeSvc svc (["/goss/goss"] ++ gossArgsGlobal cfg gossFile ++ ["render"])) fun r =>
  if r.1 > 0 then
    M.throw (.runtimeError ("Failed to parse goss configuration:\n" ++ r.2))
  else
    validateLoop cfg svc (gossArgsGlobal cfg gossFile)
      (gossArgs ++ [if lowerIn1True cfg.no_color then "--no-color" else "--color"]) fuel

/-- A Python try block with an except clause for Exception (dcgoss.py lines
297-304): Exception subclasses reach the handler; KeyboardInterrupt and
SystemExit pass through. -/
def tryCatchExc {α : Type} (m : M α) (handler : Exc → M α) : M α := fun env s =>
  match m env s with
  | (s', Res.exc e) => if Exc.isException e then handler e env s' else (s', Res.exc e)
  | r => r

/-- The body of the log-saving for loop (dcgoss.py lines 300-302): open one
log file per service and write the joined log lines into it. -/
def saveLogsLoop (cfg : Cfg) : List String → M Unit
  | [] => M.pure ()
  | svc :: rest =>
    M.bind (opWrite (cfg.log_path ++ "/" ++ svc ++ ".log")) fun _ =>
    M.bind (composeLog svc) fun _ =>
    saveLogsLoop cfg rest

/-- The try block of DCGoss._shutdown (lines 291-312): unless NO_LOGS is
set, create the log directory when missing and save one log file per
service (swallowing Exception failures of that inner block), then stop all
services and remove services, networks and volumes. -/
def shutdownBody (cfg : Cfg) : M Unit :=
  M.bind
    (if lowerIn1True cfg.no_logs then M.pure ()
     else
       M.bind (M.bind readLogDirExists fun ex =>
         if ex then M.pure () else opMakedirs cfg.log_path) fun _ =>
       tryCatchExc (M.bind composeGetServices (saveLogsLoop cfg))
         (fun _ => M.pure ()))
    fun _ =>
  M.bind composeStop fun _ =>
  composeDown

/-- Bookkeeping at each entry of DCGoss._shutdown: count the entry and
record it in the trace together with the current forced_shutdown flag. -/
def shutdownEnterSt (s : St) : St :=
  { s with
      shutdownCalls := s.shutdownCalls + 1
      trace := s.trace ++ [Event.shutdownEnter s.forced_shutdown] }

/-- DCGoss._shutdown (lines 288-321).  A KeyboardInterrupt caught from the
body exits the process with status 1 (modelled as SystemExit 1) when
forced_shutdown is already set; otherwise it sets forced_shutdown and calls
_shutdown again. -/
def shutdown (cfg : Cfg) : Nat → M Unit
  | 0 => M.spinOut
  | fuel + 1 => fun env s =>
    match shutdownBody cfg env (shutdownEnterSt s) with
    | (s', Res.exc .keyboardInterrupt) =>
      if s'.forced_shutdown then (s', Res.exc (.systemExit 1))
      else shutdown cfg fuel env { s' with forced_shutdown := true }
    | r => r

/-- A Python try with a finally clause: the finalizer runs whenever the
body terminates (normally or with an exception) and its own exception
replaces the pending result; an infinite body never reaches the finalizer. -/
def tryFinallyM {α : Type} (m : M α) (fin : M Unit) : M α := fun env s =>
  match m env s with
  | (s', Res.spin) => (s', Res.spin)
  | (s', r) =>
    match fin env s' with
    | (s'', Res.ok ()) => (s'', r)
    | (s'', Res.exc e) => (s'', Res.exc e)
    | (s'', Res.spin) => (s'', Res.spin)

/-- The except clauses of DCGoss.run and DCGoss.edit (lines 392-397 and
425-430): Exception maps to return code 1, KeyboardInterrupt to 2. -/
def catchHandlers (m : M Int) : M Int := fun env s =>
  match m env s with
  | (s', Res.exc e) =>
    if Exc.isException e then (s', Res.ok 1)
    else if e = Exc.keyboardInterrupt then (s', Res.ok 2)
    else (s', Res.exc e)
  | r => r

/-- The try block of DCGoss.run (lines 370-390): start up, run the wait
tests when the wait file exists, run the main tests, return 0. -/
def runBody (cfg : Cfg) (svc : String) (fuel : Nat) : M Int :=
  M.bind (startup cfg svc fuel) fun _ =>
  M.bind
    (if cfg.goss_wait_isfile then
       runGossValidate cfg svc "goss_wait.yaml" cfg.goss_wait_opts fuel
     else M.pure ()) fun _ =>
  M.bind (runGossValidate cfg svc "goss.yaml" cfg.goss_opts fuel) fun _ =>
  M.pure 0

/-- DCGoss.run (lines 369-400): the body under the except handlers, with
_shutdown always executed in the finally clause. -/
def run (cfg : Cfg) (svc : String) (fuel : Nat) : M Int :=
  tryFinallyM (catchHandlers (runBody cfg svc fuel)) (shutdown cfg 2)

/-- The try block of DCGoss.edit (lines 403-423): start up, query the
container id (slicing a missing id raises TypeError at line 414), run the
interactive shell, copy the updated configuration out (the docker cp of
line 250; the host staging is the file-system model above), return 0. -/
def editBody (cfg : Cfg) (svc : String) (fuel : Nat) : M Int :=
  M.bind (startup cfg svc fuel) fun _ =>
  M.bind (composeGetContainerId svc) fun cid =>
  match cid with
  | none => M.throw Exc.typeError
  | some c =>
    M.bind (opCmd (Event.subprocessCall
      (["exec", svc, "sh", "-c", "cd /goss; PATH=\"/goss:$PATH\" exec sh"]))) fun _ =>
    M.bind (dockerCpCmd (c ++ ":/goss") "tempdir") fun _ =>
    M.pure 0

/-- DCGoss.edit (lines 402-433). -/
def edit (cfg : Cfg) (svc : String) (fuel : Nat) : M Int :=
  tryFinallyM (catchHandlers (editBody cfg svc fuel)) (shutdown cfg 2)

/-- Frame property of a computation: it preserves forced_shutdown, never
decreases the operation counter, and only appends trace events satisfying P. -/
def M.frame {α : Type} (P : Event → Prop) (m : M α) : Prop :=
  ∀ env s, (m env s).1.forced_shutdown = s.forced_shutdown ∧
    s.ops ≤ (m env s).1.ops ∧
    ∃ δ, (m env s).1.trace = s.trace ++ δ ∧ ∀ e ∈ δ, P e

/-- A computation that leaves start_time unchanged. -/
def M.keepsStart {α : Type} (m : M α) : Prop :=
  ∀ env s, (m env s).1.start_time = s.start_time

theorem M.frame_mono {α : Type} {P Q : Event → Prop} {m : M α}
    (hPQ : ∀ e, P e → Q e) (h : M.frame P m) : M.frame Q m := by
  intro env s
  obtain ⟨h1, h2, δ, h3, h4⟩ := h env s
  exact ⟨h1, h2, δ, h3, fun e he => hPQ e (h4 e he)⟩

theorem M.frame_bind {α β : Type} {P : Event → Prop} {m : M α} {f : α → M β}
    (hm : M.frame P m) (hf : ∀ a, M.frame P (f a)) : M.frame P (M.bind m f) := by
  intro env s
  obtain ⟨h1, h2, δ, h3, h4⟩ := hm env s
  rcases hres : m env s with ⟨s', r⟩
  rw [hres] at h1 h2 h3
  cases r with
  | ok a =>
    obtain ⟨g1, g2, δ2, g3, g4⟩ := hf a env s'
    refine ⟨?_, ?_, δ ++ δ2, ?_, ?_⟩
    · simp only [M.bind, hres]; rw [g1, h1]
    · simp only [M.bind, hres]; exact le_trans h2 g2
    · simp only [M.bind, hres]; rw [g3, h3, List.append_assoc]
    · intro e he
      rcases List.mem_append.mp he with h | h
      · exact h4 e h
      · exact g4 e h
  | exc e => exact ⟨by simp only [M.bind, hres]; exact h1,
      by simp only [M.bind, hres]; exact h2, δ,
      by simp only [M.bind, hres]; exact h3, h4⟩
  | spin => exact ⟨by simp only [M.bind, hres]; exact h1,
      by simp only [M.bind, hres]; exact h2, δ,
      by simp only [M.bind, hres]; exact h3, h4⟩

theorem M.keepsStart_bind {α β : Type} {m : M α} {f : α → M β}
    (hm : M.keepsStart m) (hf : ∀ a, M.keepsStart (f a)) :
    M.keepsStart (M.bind m f) := by
  intro env s
  have h1 := hm env s
  rcases hres : m env s with ⟨s', r⟩
  rw [hres] at h1
  cases r with
  | ok a => simp only [M.bind, hres]; rw [hf a env s', h1]
  | exc e => simp only [M.bind, hres]; exact h1
  | spin => simp only [M.bind, hres]; exact h1

theorem M.frame_pure {α : Type} {P : Event → Prop} (a : α) : M.frame P (M.pure a) :=
  fun env s => ⟨rfl, le_refl _, [], by simp [M.pure], by simp⟩

theorem M.frame_throw {α : Type} {P : Event → Prop} (e : Exc) :
    M.frame P (M.throw (α := α) e) :=
  fun env s => ⟨rfl, le_refl _, [], by simp [M.throw], by simp⟩

theorem M.frame_spinOut {α : Type} {P : Event → Prop} :
    M.frame P (M.spinOut (α := α)) :=
  fun env s => ⟨rfl, le_refl _, [], by simp [M.spinOut], by simp⟩

theorem M.frame_opTime {P : Event → Prop} : M.frame P opTime := by
  intro env s
  unfold opTime incOps
  split <;> exact ⟨rfl, by simp, [], by simp, by simp⟩

theorem M.frame_opSleep {P : Event → Prop} {d : Rat} (hP : P (Event.sleep d)) :
    M.frame P (opSleep d) := by
  intro env s
  unfold opSleep incOps
  split
  · exact ⟨rfl, by simp, [], by simp, by simp⟩
  · exact ⟨rfl, by simp, [Event.sleep d], by simp, by simpa using hP⟩

theorem M.frame_opCmd {P : Event → Prop} {ev : Event} (hP : P ev) :
    M.frame P (opCmd ev) := by
  intro env s
  unfold opCmd incOps
  split
  · exact ⟨rfl, by simp, [], by simp, by simp⟩
  · exact ⟨rfl, by simp, [ev], by simp, by simpa using hP⟩

theorem M.frame_opCmdPipe {P : Event → Prop} {ev : Event} (hP : P ev) :
    M.frame P (opCmdPipe ev) := by
  intro env s
  unfold opCmdPipe incOps
  split
  · exact ⟨rfl, by simp, [], by simp, by simp⟩
  · exact ⟨rfl, by simp, [ev], by simp, by simpa using hP⟩

theorem M.frame_opInspect {P : Event → Prop} {cid : String} :
    M.frame P (opInspect cid) := by
  intro env s
  unfold opInspect incOps
  split <;> exact ⟨rfl, by simp, [], by simp, by simp⟩

theorem M.frame_opWrite {P : Event → Prop} {p : String} (hP : P (Event.writeLog p)) :
    M.frame P (opWrite p) := by
  intro env s
  unfold opWrite incOps
  split
  · exact ⟨rfl, by simp, [], by simp, by simp⟩
  · exact ⟨rfl, by simp, [Event.writeLog p], by simp, by simpa using hP⟩

theorem M.frame_opMakedirs {P : Event → Prop} {p : String} (hP : P (Event.makedirs p)) :
    M.frame P (opMakedirs p) := by
  intro env s
  unfold opMakedirs incOps
  split
  · exact ⟨rfl, by simp, [], by simp, by simp⟩
  · exact ⟨rfl, by simp, [Event.makedirs p], by simp, by simpa using hP⟩

theorem M.frame_readStartTime {P : Event → Prop} : M.frame P readStartTime :=
  fun env s => ⟨rfl, le_refl _, [], by simp [readStartTime], by simp⟩

theorem M.frame_setStartTime {P : Event → Prop} {t : Rat} :
    M.frame P (setStartTime t) :=
  fun env s => ⟨rfl, le_refl _, [], by simp [setStartTime], by simp⟩

theorem M.frame_readLogDirExists {P : Event → Prop} : M.frame P readLogDirExists :=
  fun env s => ⟨rfl, le_refl _, [], by simp [readLogDirExists], by simp⟩

theorem M.frame_ite {α : Type} {P : Event → Prop} {c : Prop} [Decidable c]
    {m₁ m₂ : M α} (h₁ : M.frame P m₁) (h₂ : M.frame P m₂) :
    M.frame P (if c then m₁ else m₂) := by
  split <;> assumption

theorem M.keepsStart_pure {α : Type} (a : α) : M.keepsStart (M.pure a) :=
  fun env s => rfl

theorem M.keepsStart_throw {α : Type} (e : Exc) :
    M.keepsStart (M.throw (α := α) e) := fun env s => rfl

theorem M.keepsStart_opTime : M.keepsStart opTime := by
  intro env s; unfold opTime incOps; split <;> rfl

theorem M.keepsStart_opSleep {d : Rat} : M.keepsStart (opSleep d) := by
  intro env s; unfold opSleep incOps; split <;> rfl

theorem M.keepsStart_opCmd {ev : Event} : M.keepsStart (opCmd ev) := by
  intro env s; unfold opCmd incOps; split <;> rfl

theorem M.keepsStart_opCmdPipe {ev : Event} : M.keepsStart (opCmdPipe ev) := by
  intro env s; unfold opCmdPipe incOps; split <;> rfl

theorem M.keepsStart_opInspect {cid : String} : M.keepsStart (opInspect cid) := by
  intro env s; unfold opInspect incOps; split <;> rfl

theorem M.keepsStart_readStartTime : M.keepsStart readStartTime :=
  fun env s => rfl

theorem M.keepsStart_ite {α : Type} {c : Prop} [Decidable c] {m₁ m₂ : M α}
    (h₁ : M.keepsStart m₁) (h₂ : M.keepsStart m₂) :
    M.keepsStart (if c then m₁ else m₂) := by
  split <;> assumption

theorem frame_composeUp {P : Event → Prop} {svc : String}
    (hP : P (Event.compose ["up", "-d", svc])) : M.frame P (composeUp svc) :=
  M.frame_bind (M.frame_opCmd hP)
    (fun e => M.frame_ite (M.frame_throw _) (M.frame_pure _))

theorem frame_composeDown {P : Event → Prop}
    (hP : P (Event.compose ["down", "--volumes"])) : M.frame P composeDown :=
  M.frame_bind (M.frame_opCmd hP)
    (fun e => M.frame_ite (M.frame_throw _) (M.frame_pure _))

theorem frame_composeStop {P : Event → Prop}
    (hP : P (Event.compose ["stop"])) : M.frame P composeStop :=
  M.frame_bind (M.frame_opCmd hP)
    (fun e => M.frame_ite (M.frame_throw _) (M.frame_pure _))

theorem frame_composeRestart {P : Event → Prop} {svc : String}
    (hP : P (Event.compose ["restart", svc])) : M.frame P (composeRestart svc) :=
  M.frame_bind (M.frame_opCmd hP)
    (fun e => M.frame_ite (M.frame_throw _) (M.frame_pure _))

theorem frame_composeExecSvc {P : Event → Prop} {svc : String} {args : List String}
    (hP : P (Event.compose (["exec", svc] ++ args))) :
    M.frame P (composeExecSvc svc args) :=
  M.frame_opCmd hP

theorem frame_composeExecPipeSvc {P : Event → Prop} {svc : String} {args : List String}
    (hP : P (Event.compose (["exec", svc] ++ args))) :
    M.frame P (composeExecPipeSvc svc args) :=
  M.frame_opCmdPipe hP

theorem frame_composeGetContainerId {P : Event → Prop} {svc : String}
    (hP : P (Event.compose ["ps", "--quiet", svc])) :
    M.frame P (composeGetContainerId svc) :=
  M.frame_bind (M.frame_opCmdPipe hP) (fun r => M.frame_pure _)

theorem frame_composeGetServices {P : Event → Prop}
    (hP : P (Event.compose ["ps", "--services"])) :
    M.frame P composeGetServices :=
  M.frame_bind (M.frame_opCmdPipe hP) (fun r => M.frame_pure _)

theorem frame_composeLog {P : Event → Prop} {svc : String}
    (hP : P (Event.compose ["logs", svc])) : M.frame P (composeLog svc) :=
  M.frame_bind (M.frame_opCmdPipe hP) (fun r => M.frame_pure _)

theorem frame_dockerCpCmd {P : Event → Prop} {src tgt : String}
    (hP : P (Event.dockerCp src tgt)) : M.frame P (dockerCpCmd src tgt) :=
  M.frame_bind (M.frame_opCmd hP)
    (fun e => M.frame_ite (M.frame_throw _) (M.frame_pure _))

theorem frame_isServiceUp {P : Event → Prop} {svc : String}
    (hP : P (Event.compose ["ps", "--quiet", svc])) :
    M.frame P (isServiceUp svc) :=
  M.frame_bind (frame_composeGetContainerId hP)
    (fun cid => M.frame_bind
      (M.frame_ite M.frame_opInspect (M.frame_pure _))
      (fun st => M.frame_pure _))

theorem frame_getStartTimeSvc {P : Event → Prop} {svc : String}
    (hP : P (Event.compose ["ps", "--quiet", svc])) :
    M.frame P (getStartTimeSvc svc) :=
  M.frame_bind (frame_composeGetContainerId hP)
    (fun cid => M.frame_bind
      (M.frame_ite M.frame_opInspect (M.frame_pure _))
      (fun st => M.frame_pure _))

theorem frame_startupIterRest {P : Event → Prop} {cfg : Cfg} {svc : String}
    (hps : P (Event.compose ["ps", "--quiet", svc]))
    (hs1 : P (Event.sleep 1)) (hsi : P (Event.sleep cfg.initial_startup)) :
    ∀ t, M.frame P (startupIterRest cfg svc t) := by
  intro t
  unfold startupIterRest
  apply M.frame_bind M.frame_readStartTime; intro st
  apply M.frame_ite (M.frame_throw _)
  apply M.frame_bind (frame_isServiceUp hps); intro up
  apply M.frame_ite
  · exact M.frame_bind (M.frame_opSleep hs1) (fun _ => M.frame_pure _)
  · apply M.frame_bind (frame_getStartTimeSvc hps); intro s1
    apply M.frame_bind (M.frame_opSleep hsi); intro u
    apply M.frame_bind (frame_getStartTimeSvc hps); intro s2
    apply M.frame_ite
    · exact M.frame_bind (M.frame_opSleep hs1)
        (fun _ => M.frame_bind (frame_isServiceUp hps) (fun _ => M.frame_pure _))
    · exact M.frame_pure _

theorem frame_startupIterBody {P : Event → Prop} {cfg : Cfg} {svc : String}
    (hps : P (Event.compose ["ps", "--quiet", svc]))
    (hs1 : P (Event.sleep 1)) (hsi : P (Event.sleep cfg.initial_startup)) :
    M.frame P (startupIterBody cfg svc) :=
  M.frame_bind M.frame_opTime (frame_startupIterRest hps hs1 hsi)

theorem frame_startupLoop {P : Event → Prop} {cfg : Cfg} {svc : String}
    (hps : P (Event.compose ["ps", "--quiet", svc]))
    (hs1 : P (Event.sleep 1)) (hsi : P (Event.sleep cfg.initial_startup)) :
    ∀ fuel, M.frame P (startupLoop cfg svc fuel) := by
  intro fuel
  induction fuel with
  | zero => exact M.frame_spinOut
  | succ n ih =>
    exact M.frame_bind (frame_startupIterBody hps hs1 hsi)
      (fun brk => M.frame_ite (M.frame_pure _) ih)

theorem frame_validateIterRest {P : Event → Prop} {cfg : Cfg} {svc : String}
    {argsG gossArgs : List String}
    (hex : P (Event.compose (["exec", svc] ++ (["/goss/goss"] ++ argsG ++ ["validate"] ++ gossArgs))))
    (hps : P (Event.compose ["ps", "--quiet", svc]))
    (hsl : P (Event.sleep cfg.retry_interval))
    (hrs : P (Event.compose ["restart", svc])) :
    ∀ t, M.frame P (validateIterRest cfg svc argsG gossArgs t) := by
  intro t
  unfold validateIterRest
  apply M.frame_bind M.frame_readStartTime; intro st
  apply M.frame_ite (M.frame_throw _)
  apply M.frame_bind (frame_composeExecSvc hex); intro e
  apply M.frame_ite
  · apply M.frame_bind (M.frame_opSleep hsl); intro u
    apply M.frame_bind (frame_isServiceUp hps); intro up
    apply M.frame_bind (M.frame_ite (M.frame_pure _) (frame_composeRestart hrs))
    intro u2; exact M.frame_pure _
  · exact M.frame_pure _

theorem frame_validateIterBody {P : Event → Prop} {cfg : Cfg} {svc : String}
    {argsG gossArgs : List String}
    (hex : P (Event.compose (["exec", svc] ++ (["/goss/goss"] ++ argsG ++ ["validate"] ++ gossArgs))))
    (hps : P (Event.compose ["ps", "--quiet", svc]))
    (hsl : P (Event.sleep cfg.retry_interval))
    (hrs : P (Event.compose ["restart", svc])) :
    M.frame P (validateIterBody cfg svc argsG gossArgs) :=
  M.frame_bind M.frame_opTime (frame_validateIterRest hex hps hsl hrs)

theorem frame_validateLoop {P : Event → Prop} {cfg : Cfg} {svc : String}
    {argsG gossArgs : List String}
    (hex : P (Event.compose (["exec", svc] ++ (["/goss/goss"] ++ argsG ++ ["validate"] ++ gossArgs))))
    (hps : P (Event.compose ["ps", "--quiet", svc]))
    (hsl : P (Event.sleep cfg.retry_interval))
    (hrs : P (Event.compose ["restart", svc])) :
    ∀ fuel, M.frame P (validateLoop cfg svc argsG gossArgs fuel) := by
  intro fuel
  induction fuel with
  | zero => exact M.frame_spinOut
  | succ n ih =>
    exact M.frame_bind (frame_validateIterBody hex hps hsl hrs)
      (fun brk => M.frame_ite (M.frame_pure _) ih)

theorem frame_runGossValidate {P : Event → Prop} {cfg : Cfg} {svc gossFile : String}
    {gossArgs : List String}
    (hsl : P (Event.sleep cfg.retry_interval))
    (hrd : P (Event.compose (["exec", svc] ++ (["/goss/goss"] ++ gossArgsGlobal cfg gossFile ++ ["render"]))))
    (hex : P (Event.compose (["exec", svc] ++ (["/goss/goss"] ++ gossArgsGlobal cfg gossFile ++ ["validate"] ++ (gossArgs ++ [if lowerIn1True cfg.no_color then "--no-color" else "--color"])))))
    (hps : P (Event.compose ["ps", "--quiet", svc]))
    (hrs : P (Event.compose ["restart", svc])) :
    ∀ fuel, M.frame P (runGossValidate cfg svc gossFile gossArgs fuel) := by
  intro fuel
  unfold runGossValidate
  apply M.frame_bind (M.frame_opSleep hsl); intro u
  apply M.frame_bind (frame_composeExecPipeSvc hrd); intro r
  apply M.frame_ite (M.frame_throw _)
  exact frame_validateLoop hex hps hsl hrs fuel

/-- A computation that cannot run out of fuel. -/
def M.noSpin {α : Type} (m : M α) : Prop :=
  ∀ env s, (m env s).2 ≠ Res.spin

theorem M.noSpin_bind {α β : Type} {m : M α} {f : α → M β}
    (hm : M.noSpin m) (hf : ∀ a, M.noSpin (f a)) : M.noSpin (M.bind m f) := by
  intro env s
  have h1 := hm env s
  rcases hres : m env s with ⟨s', r⟩
  rw [hres] at h1
  cases r with
  | ok a => simp only [M.bind, hres]; exact hf a env s'
  | exc e => simp [M.bind, hres]
  | spin => exact absurd rfl h1

theorem M.noSpin_pure {α : Type} (a : α) : M.noSpin (M.pure a) := by
  intro env s; simp [M.pure]

theorem M.noSpin_throw {α : Type} (e : Exc) : M.noSpin (M.throw (α := α) e) := by
  intro env s; simp [M.throw]

theorem M.noSpin_ite {α : Type} {c : Prop} [Decidable c] {m₁ m₂ : M α}
    (h₁ : M.noSpin m₁) (h₂ : M.noSpin m₂) : M.noSpin (if c then m₁ else m₂) := by
  split <;> assumption

theorem M.noSpin_opTime : M.noSpin opTime := by
  intro env s; unfold opTime; split <;> simp

theorem M.noSpin_opSleep {d : Rat} : M.noSpin (opSleep d) := by
  intro env s; unfold opSleep; split <;> simp

theorem M.noSpin_opCmd {ev : Event} : M.noSpin (opCmd ev) := by
  intro env s; unfold opCmd; split <;> simp

theorem M.noSpin_opCmdPipe {ev : Event} : M.noSpin (opCmdPipe ev) := by
  intro env s; unfold opCmdPipe; split <;> simp

theorem M.noSpin_opInspect {cid : String} : M.noSpin (opInspect cid) := by
  intro env s; unfold opInspect; split <;> simp

theorem M.noSpin_readStartTime : M.noSpin readStartTime := by
  intro env s; simp [readStartTime]

theorem noSpin_composeGetContainerId {svc : String} :
    M.noSpin (composeGetContainerId svc) :=
  M.noSpin_bind M.noSpin_opCmdPipe (fun r => M.noSpin_pure _)

theorem noSpin_composeExecSvc {svc : String} {args : List String} :
    M.noSpin (composeExecSvc svc args) := M.noSpin_opCmd

theorem noSpin_composeRestart {svc : String} : M.noSpin (composeRestart svc) :=
  M.noSpin_bind M.noSpin_opCmd (fun e => M.noSpin_ite (M.noSpin_throw _) (M.noSpin_pure _))

theorem noSpin_isServiceUp {svc : String} : M.noSpin (isServiceUp svc) :=
  M.noSpin_bind noSpin_composeGetContainerId
    (fun cid => M.noSpin_bind (M.noSpin_ite M.noSpin_opInspect (M.noSpin_pure _))
      (fun st => M.noSpin_pure _))

theorem noSpin_getStartTimeSvc {svc : String} : M.noSpin (getStartTimeSvc svc) :=
  M.noSpin_bind noSpin_composeGetContainerId
    (fun cid => M.noSpin_bind (M.noSpin_ite M.noSpin_opInspect (M.noSpin_pure _))
      (fun st => M.noSpin_pure _))

theorem noSpin_startupIterBody {cfg : Cfg} {svc : String} :
    M.noSpin (startupIterBody cfg svc) := by
  apply M.noSpin_bind M.noSpin_opTime; intro t
  unfold startupIterRest
  apply M.noSpin_bind M.noSpin_readStartTime; intro st
  apply M.noSpin_ite (M.noSpin_throw _)
  apply M.noSpin_bind noSpin_isServiceUp; intro up
  apply M.noSpin_ite
  · exact M.noSpin_bind M.noSpin_opSleep (fun _ => M.noSpin_pure _)
  · apply M.noSpin_bind noSpin_getStartTimeSvc; intro s1
    apply M.noSpin_bind M.noSpin_opSleep; intro u
    apply M.noSpin_bind noSpin_getStartTimeSvc; intro s2
    apply M.noSpin_ite
    · exact M.noSpin_bind M.noSpin_opSleep
        (fun _ => M.noSpin_bind noSpin_isServiceUp (fun _ => M.noSpin_pure _))
    · exact M.noSpin_pure _

theorem noSpin_validateIterBody {cfg : Cfg} {svc : String} {argsG gossArgs : List String} :
    M.noSpin (validateIterBody cfg svc argsG gossArgs) := by
  apply M.noSpin_bind M.noSpin_opTime; intro t
  unfold validateIterRest
  apply M.noSpin_bind M.noSpin_readStartTime; intro st
  apply M.noSpin_ite (M.noSpin_throw _)
  apply M.noSpin_bind noSpin_composeExecSvc; intro e
  apply M.noSpin_ite
  · apply M.noSpin_bind M.noSpin_opSleep; intro u
    apply M.noSpin_bind noSpin_isServiceUp; intro up
    apply M.noSpin_bind (M.noSpin_ite (M.noSpin_pure _) noSpin_composeRestart)
    intro u2; exact M.noSpin_pure _
  · exact M.noSpin_pure _

theorem keepsStart_composeGetContainerId {svc : String} :
    M.keepsStart (composeGetContainerId svc) :=
  M.keepsStart_bind M.keepsStart_opCmdPipe (fun r => M.keepsStart_pure _)

theorem keepsStart_composeExecSvc {svc : String} {args : List String} :
    M.keepsStart (composeExecSvc svc args) := M.keepsStart_opCmd

theorem keepsStart_composeRestart {svc : String} : M.keepsStart (composeRestart svc) :=
  M.keepsStart_bind M.keepsStart_opCmd
    (fun e => M.keepsStart_ite (M.keepsStart_throw _) (M.keepsStart_pure _))

theorem keepsStart_isServiceUp {svc : String} : M.keepsStart (isServiceUp svc) :=
  M.keepsStart_bind keepsStart_composeGetContainerId
    (fun cid => M.keepsStart_bind
      (M.keepsStart_ite M.keepsStart_opInspect (M.keepsStart_pure _))
      (fun st => M.keepsStart_pure _))

theorem keepsStart_getStartTimeSvc {svc : String} : M.keepsStart (getStartTimeSvc svc) :=
  M.keepsStart_bind keepsStart_composeGetContainerId
    (fun cid => M.keepsStart_bind
      (M.keepsStart_ite M.keepsStart_opInspect (M.keepsStart_pure _))
      (fun st => M.keepsStart_pure _))

theorem keepsStart_startupIterBody {cfg : Cfg} {svc : String} :
    M.keepsStart (startupIterBody cfg svc) := by
  apply M.keepsStart_bind M.keepsStart_opTime; intro t
  unfold startupIterRest
  apply M.keepsStart_bind M.keepsStart_readStartTime; intro st
  apply M.keepsStart_ite (M.keepsStart_throw _)
  apply M.keepsStart_bind keepsStart_isServiceUp; intro up
  apply M.keepsStart_ite
  · exact M.keepsStart_bind M.keepsStart_opSleep (fun _ => M.keepsStart_pure _)
  · apply M.keepsStart_bind keepsStart_getStartTimeSvc; intro s1
    apply M.keepsStart_bind M.keepsStart_opSleep; intro u
    apply M.keepsStart_bind keepsStart_getStartTimeSvc; intro s2
    apply M.keepsStart_ite
    · exact M.keepsStart_bind M.keepsStart_opSleep
        (fun _ => M.keepsStart_bind keepsStart_isServiceUp (fun _ => M.keepsStart_pure _))
    · exact M.keepsStart_pure _

theorem keepsStart_validateIterBody {cfg : Cfg} {svc : String} {argsG gossArgs : List String} :
    M.keepsStart (validateIterBody cfg svc argsG gossArgs) := by
  apply M.keepsStart_bind M.keepsStart_opTime; intro t
  unfold validateIterRest
  apply M.keepsStart_bind M.keepsStart_readStartTime; intro st
  apply M.keepsStart_ite (M.keepsStart_throw _)
  apply M.keepsStart_bind keepsStart_composeExecSvc; intro e
  apply M.keepsStart_ite
  · apply M.keepsStart_bind M.keepsStart_opSleep; intro u
    apply M.keepsStart_bind keepsStart_isServiceUp; intro up
    apply M.keepsStart_bind (M.keepsStart_ite (M.keepsStart_pure _) keepsStart_composeRestart)
    intro u2; exact M.keepsStart_pure _
  · exact M.keepsStart_pure _

theorem keepsStart_startupLoop {cfg : Cfg} {svc : String} :
    ∀ fuel, M.keepsStart (startupLoop cfg svc fuel) := by
  intro fuel
  induction fuel with
  | zero => intro env s; rfl
  | succ n ih =>
    exact M.keepsStart_bind keepsStart_startupIterBody
      (fun brk => M.keepsStart_ite (M.keepsStart_pure _) ih)

theorem keepsStart_validateLoop {cfg : Cfg} {svc : String} {argsG gossArgs : List String} :
    ∀ fuel, M.keepsStart (validateLoop cfg svc argsG gossArgs fuel) := by
  intro fuel
  induction fuel with
  | zero => intro env s; rfl
  | succ n ih =>
    exact M.keepsStart_bind keepsStart_validateIterBody
      (fun brk => M.keepsStart_ite (M.keepsStart_pure _) ih)

/-- A computation prefixed by a time() query advances the operation counter. -/
theorem bind_opTime_ops {β : Type} {k : Rat → M β}
    (hk : ∀ t, M.frame (fun _ => True) (k t)) (env : Env) (s : St) :
    s.ops + 1 ≤ ((M.bind opTime k) env s).1.ops := by
  unfold M.bind opTime
  by_cases hki : env.ki s.ops = true
  · simp [hki, incOps]
  · have h := (hk (env.timeAt s.ops) env (incOps s)).2.1
    simp only [hki] at *
    simpa [incOps] using h

theorem startupIterBody_ops (cfg : Cfg) (svc : String) (env : Env) (s : St) :
    s.ops + 1 ≤ ((startupIterBody cfg svc) env s).1.ops :=
  bind_opTime_ops (fun t => frame_startupIterRest trivial
    trivial trivial t) env s

theorem validateIterBody_ops (cfg : Cfg) (svc : String) (argsG gossArgs : List String)
    (env : Env) (s : St) :
    s.ops + 1 ≤ ((validateIterBody cfg svc argsG gossArgs) env s).1.ops :=
  bind_opTime_ops (fun t => frame_validateIterRest trivial trivial
    trivial trivial t) env s

/-- A startup loop iteration only produces a value when the timeout check at
its head passed. -/
theorem startupIterBody_ok_time {cfg : Cfg} {svc : String} {env : Env} {s : St}
    {b : Bool} (h : ((startupIterBody cfg svc) env s).2 = Res.ok b) :
    ¬ env.timeAt s.ops - s.start_time > cfg.retry_timeout := by
  intro hgt
  unfold startupIterBody M.bind opTime at h
  by_cases hki : env.ki s.ops = true
  · simp [hki] at h
  · simp only [hki] at h
    unfold startupIterRest M.bind readStartTime at h
    simp [incOps, hgt, M.throw] at h

/-- A validate loop iteration only produces a value when the timeout check
at its head passed. -/
theorem validateIterBody_ok_time {cfg : Cfg} {svc : String}
    {argsG gossArgs : List String} {env : Env} {s : St} {b : Bool}
    (h : ((validateIterBody cfg svc argsG gossArgs) env s).2 = Res.ok b) :
    ¬ env.timeAt s.ops - s.start_time > cfg.retry_timeout := by
  intro hgt
  unfold validateIterBody M.bind opTime at h
  by_cases hki : env.ki s.ops = true
  · simp [hki] at h
  · simp only [hki] at h
    unfold validateIterRest M.bind readStartTime at h
    simp [incOps, hgt, M.throw] at h

/-- C1: every polling loop is bounded by the retry timeout.  First two
conjuncts: in both the _startup wait loop and the _run_goss_validate retry
loop, an iteration whose time() reading exceeds start_time plus
retry_timeout raises TimeoutError at once (no interrupt being delivered at
that query).  Last two conjuncts: whenever the clock eventually stays above
start_time plus retry_timeout (all readings from index K on), each loop
terminates, for any oracle behaviour, within K plus one iterations, so
neither loop can poll forever. -/
theorem polling_loops_bounded_by_retry_timeout :
    (∀ (cfg : Cfg) (svc : String) (env : Env) (s : St) (fuel : Nat),
       env.ki s.ops = false →
       env.timeAt s.ops - s.start_time > cfg.retry_timeout →
       (startupLoop cfg svc (fuel + 1) env s).2 =
         Res.exc (.timeoutError "Timeout reached while waiting for initial container startup")) ∧
    (∀ (cfg : Cfg) (svc : String) (argsG gossArgs : List String) (env : Env)
       (s : St) (fuel : Nat),
       env.ki s.ops = false →
       env.timeAt s.ops - s.start_time > cfg.retry_timeout →
       (validateLoop cfg svc argsG gossArgs (fuel + 1) env s).2 =
         Res.exc (.timeoutError "Timeout reached while waiting for all tests to pass")) ∧
    (∀ (cfg : Cfg) (svc : String) (env : Env) (s : St) (K fuel : Nat),
       (∀ k, K ≤ k → env.timeAt k - s.start_time > cfg.retry_timeout) →
       K < s.ops + fuel → 1 ≤ fuel →
       (startupLoop cfg svc fuel env s).2 ≠ Res.spin) ∧
    (∀ (cfg : Cfg) (svc : String) (argsG gossArgs : List String) (env : Env)
       (s : St) (K fuel : Nat),
       (∀ k, K ≤ k → env.timeAt k - s.start_time > cfg.retry_timeout) →
       K < s.ops + fuel → 1 ≤ fuel →
       (validateLoop cfg svc argsG gossArgs fuel env s).2 ≠ Res.spin) := by
  refine ⟨?_, ?_, ?_, ?_⟩
  · intro cfg svc env s fuel hki hgt
    show ((M.bind (startupIterBody cfg svc) fun brk =>
      if brk then M.pure () else startupLoop cfg svc fuel) env s).2 = _
    unfold startupIterBody M.bind opTime
    simp only [hki]
    unfold startupIterRest M.bind readStartTime
    simp [incOps, hgt, M.throw]
  · intro cfg svc argsG gossArgs env s fuel hki hgt
    show ((M.bind (validateIterBody cfg svc argsG gossArgs) fun brk =>
      if brk then M.pure () else validateLoop cfg svc argsG gossArgs fuel) env s).2 = _
    unfold validateIterBody M.bind opTime
    simp only [hki]
    unfold validateIterRest M.bind readStartTime
    simp [incOps, hgt, M.throw]
  · intro cfg svc env s K fuel
    induction fuel generalizing s with
    | zero => intro h hK h1; omega
    | succ n ih =>
      intro h hK _
      show ((M.bind (startupIterBody cfg svc) fun brk =>
        if brk then M.pure () else startupLoop cfg svc n) env s).2 ≠ Res.spin
      rcases hb : startupIterBody cfg svc env s with ⟨s', r⟩
      cases r with
      | exc e => simp [M.bind, hb]
      | spin =>
        have := @noSpin_startupIterBody cfg svc env s
        rw [hb] at this; exact absurd rfl this
      | ok b =>
        cases b with
        | true => simp [M.bind, hb, M.pure]
        | false =>
          simp only [M.bind, hb]
          have hops : s.ops + 1 ≤ s'.ops := by
            have := startupIterBody_ops cfg svc env s
            rw [hb] at this; exact this
          have hst : s'.start_time = s.start_time := by
            have := @keepsStart_startupIterBody cfg svc env s
            rw [hb] at this; exact this
          have htc : ¬ env.timeAt s.ops - s.start_time > cfg.retry_timeout :=
            startupIterBody_ok_time (by rw [hb])
          have hlt : s.ops < K := by
            by_contra hge
            exact htc (h s.ops (le_of_not_lt hge))
          show (startupLoop cfg svc n env s').2 ≠ Res.spin
          refine ih s' (fun k hk => ?_) (by omega) (by omega)
          rw [hst]; exact h k hk
  · intro cfg svc argsG gossArgs env s K fuel
    induction fuel generalizing s with
    | zero => intro h hK h1; omega
    | succ n ih =>
      intro h hK _
      show ((M.bind (validateIterBody cfg svc argsG gossArgs) fun brk =>
        if brk then M.pure () else validateLoop cfg svc argsG gossArgs n) env s).2 ≠ Res.spin
      rcases hb : validateIterBody cfg svc argsG gossArgs env s with ⟨s', r⟩
      cases r with
      | exc e => simp [M.bind, hb]
      | spin =>
        have := @noSpin_validateIterBody cfg svc argsG gossArgs env s
        rw [hb] at this; exact absurd rfl this
      | ok b =>
        cases b with
        | true => simp [M.bind, hb, M.pure]
        | false =>
          simp only [M.bind, hb]
          have hops : s.ops + 1 ≤ s'.ops := by
            have := validateIterBody_ops cfg svc argsG gossArgs env s
            rw [hb] at this; exact this
          have hst : s'.start_time = s.start_time := by
            have := @keepsStart_validateIterBody cfg svc argsG gossArgs env s
            rw [hb] at this; exact this
          have htc : ¬ env.timeAt s.ops - s.start_time > cfg.retry_timeout :=
            validateIterBody_ok_time (by rw [hb])
          have hlt : s.ops < K := by
            by_contra hge
            exact htc (h s.ops (le_of_not_lt hge))
          show (validateLoop cfg svc argsG gossArgs n env s').2 ≠ Res.spin
          refine ih s' (fun k hk => ?_) (by omega) (by omega)
          rw [hst]; exact h k hk

/-- A concrete configuration for witnesses. -/
def cfgW : Cfg :=
  { retry_timeout := 300, retry_interval := 1, initial_startup := 5,
    goss_vars_isfile := false, goss_wait_isfile := false,
    no_color := none, no_logs := none,
    goss_wait_opts := [], goss_opts := [], log_path := "logs" }

/-- The initial program state (dcgoss.py lines 106-107 set start_time to 0
and forced_shutdown to False). -/
def stW : St :=
  { ops := 0, start_time := 0, forced_shutdown := false,
    shutdownCalls := 0, logDirExists := false, trace := [] }

/-- A world whose clock is far beyond the timeout from the start. -/
def envW : Env :=
  { timeAt := fun _ => 1000, ki := fun _ => false,
    cmdExit := fun _ => 0, cmdOut := fun _ => "", inspect := fun _ => none }

theorem polling_loops_bounded_witness :
    (startupLoop cfgW "web" 3 envW stW).2 =
      Res.exc (.timeoutError "Timeout reached while waiting for initial container startup") ∧
    (validateLoop cfgW "web" [] [] 3 envW stW).2 ≠ Res.spin :=
  ⟨polling_loops_bounded_by_retry_timeout.1 cfgW "web" envW stW 2 rfl
      (by norm_num [envW, stW, cfgW]),
   polling_loops_bounded_by_retry_timeout.2.2.2 cfgW "web" [] [] envW stW 0 3
      (fun k hk => by norm_num [envW, stW, cfgW]) (by decide) (by decide)⟩

/-- C8: the sleep interval of every polling loop is fixed for the whole run.
Every sleep the _startup wait loop performs lasts exactly 1 second (between
container-state polls) or exactly initial_startup seconds (the stability
check), and every sleep _run_goss_validate performs (the initial delay and
the delay between failed attempts) lasts exactly retry_interval seconds;
this holds at every iteration for every oracle behaviour, so the interval
never changes between iterations and there is no backoff. -/
theorem polling_sleep_intervals_fixed :
    (∀ (cfg : Cfg) (svc : String) (fuel : Nat) (env : Env) (s : St) (d : Rat),
       Event.sleep d ∈ ((startupLoop cfg svc fuel) env s).1.trace →
       Event.sleep d ∈ s.trace ∨ d = 1 ∨ d = cfg.initial_startup) ∧
    (∀ (cfg : Cfg) (svc gossFile : String) (gossArgs : List String)
       (fuel : Nat) (env : Env) (s : St) (d : Rat),
       Event.sleep d ∈ ((runGossValidate cfg svc gossFile gossArgs fuel) env s).1.trace →
       Event.sleep d ∈ s.trace ∨ d = cfg.retry_interval) := by
  constructor
  · intro cfg svc fuel env s d hmem
    have hfr := @frame_startupLoop
      (fun e => ∀ x, e = Event.sleep x → x = 1 ∨ x = cfg.initial_startup)
      cfg svc
      (fun x hx => by cases hx)
      (fun x hx => by injection hx with hx; exact Or.inl hx.symm)
      (fun x hx => by injection hx with hx; exact Or.inr hx.symm)
      fuel env s
    obtain ⟨hforced, hops, δ, htr, hP⟩ := hfr
    rw [htr] at hmem
    rcases List.mem_append.mp hmem with hmem | hmem
    · exact Or.inl hmem
    · exact Or.inr (hP _ hmem d rfl)
  · intro cfg svc gossFile gossArgs fuel env s d hmem
    have hfr := @frame_runGossValidate
      (fun e => ∀ x, e = Event.sleep x → x = cfg.retry_interval)
      cfg svc gossFile gossArgs
      (fun x hx => by injection hx with hx; exact hx.symm)
      (fun x hx => by cases hx)
      (fun x hx => by cases hx)
      (fun x hx => by cases hx)
      (fun x hx => by cases hx)
      fuel env s
    obtain ⟨hforced, hops, δ, htr, hP⟩ := hfr
    rw [htr] at hmem
    rcases List.mem_append.mp hmem with hmem | hmem
    · exact Or.inl hmem
    · exact Or.inr (hP _ hmem d rfl)

section
attribute [local semireducible] Rat.sub

/-- A world in which the container is reported as not running: the wait loop
keeps polling and sleeping. -/
def envDown : Env :=
  { timeAt := fun _ => 0, ki := fun _ => false,
    cmdExit := fun _ => 0, cmdOut := fun _ => "abc",
    inspect := fun _ => some { running := some false, restarting := none, startedAt := none } }

theorem polling_sleep_intervals_witness :
    Event.sleep 1 ∈ ((startupLoop cfgW "web" 2) envDown stW).1.trace ∧
    (Event.sleep 1 ∈ stW.trace ∨ (1 : Rat) = 1 ∨ (1 : Rat) = cfgW.initial_startup) :=
  ⟨by decide,
   polling_sleep_intervals_fixed.1 cfgW "web" 2 envDown stW 1 (by decide)⟩

end

/-- The container id DockerCompose.get_container_id reports when its ps
command runs at operation index k. -/
def cidAt (env : Env) (k : Nat) : Option String :=
  if env.cmdExit k = 0 then some (pyRstrip (env.cmdOut k)) else none

/-- The state dict _is_service_up and _get_start_time observe when their
container id query runs at operation index k (the inspect, when the id is
truthy, is the following operation). -/
def stateAt (env : Env) (k : Nat) : Option CState :=
  if truthy (cidAt env k) then env.inspect (k + 1) else none

/-- The value _is_service_up returns when its query starts at index k. -/
def upAt (env : Env) (k : Nat) : Bool := serviceUpFromState (stateAt env k)

/-- The value _get_start_time returns when its query starts at index k. -/
def startAt (env : Env) (k : Nat) : Option Int := startedAtFromState (stateAt env k)

/-- How many operations a _is_service_up or _get_start_time query starting
at index k consumes. -/
def upOps (env : Env) (k : Nat) : Nat := if truthy (cidAt env k) then 2 else 1

theorem composeGetContainerId_eval {svc : String} {env : Env} {s : St}
    (h1 : env.ki s.ops = false) :
    composeGetContainerId svc env s =
      ({ incOps s with trace := s.trace ++ [Event.compose ["ps", "--quiet", svc]] },
       Res.ok (cidAt env s.ops)) := by
  unfold composeGetContainerId M.bind opCmdPipe M.pure cidAt
  simp [h1]

theorem isServiceUp_eval {svc : String} {env : Env} {s : St}
    (h1 : env.ki s.ops = false) (h2 : env.ki (s.ops + 1) = false) :
    isServiceUp svc env s =
      ({ s with
          ops := s.ops + upOps env s.ops
          trace := s.trace ++ [Event.compose ["ps", "--quiet", svc]] },
       Res.ok (upAt env s.ops)) := by
  unfold isServiceUp M.bind
  rw [composeGetContainerId_eval h1]
  by_cases ht : truthy (cidAt env s.ops) = true
  · unfold opInspect
    simp [ht, incOps, h2, upOps, upAt, stateAt, M.pure]
  · simp only [ht]
    simp [M.pure, upOps, upAt, stateAt, ht, incOps]

theorem getStartTimeSvc_eval {svc : String} {env : Env} {s : St}
    (h1 : env.ki s.ops = false) (h2 : env.ki (s.ops + 1) = false) :
    getStartTimeSvc svc env s =
      ({ s with
          ops := s.ops + upOps env s.ops
          trace := s.trace ++ [Event.compose ["ps", "--quiet", svc]] },
       Res.ok (startAt env s.ops)) := by
  unfold getStartTimeSvc M.bind
  rw [composeGetContainerId_eval h1]
  by_cases ht : truthy (cidAt env s.ops) = true
  · unfold opInspect
    simp [ht, incOps, h2, upOps, startAt, stateAt, M.pure]
  · simp only [ht]
    simp [M.pure, upOps, startAt, stateAt, ht, incOps]

/-- A computation that never raises TimeoutError. -/
def M.noTimeout {α : Type} (m : M α) : Prop :=
  ∀ env s msg, (m env s).2 ≠ Res.exc (.timeoutError msg)

theorem M.noTimeout_bind {α β : Type} {m : M α} {f : α → M β}
    (hm : M.noTimeout m) (hf : ∀ a, M.noTimeout (f a)) : M.noTimeout (M.bind m f) := by
  intro env s msg
  have h1 := hm env s msg
  rcases hres : m env s with ⟨s', r⟩
  rw [hres] at h1
  cases r with
  | ok a => simp only [M.bind, hres]; exact hf a env s' msg
  | exc e => simp only [M.bind, hres]; simpa using h1
  | spin => simp [M.bind, hres]

theorem M.noTimeout_pure {α : Type} (a : α) : M.noTimeout (M.pure a) := by
  intro env s msg; simp [M.pure]

theorem M.noTimeout_throw {α : Type} {e : Exc} (he : ∀ msg, e ≠ .timeoutError msg) :
    M.noTimeout (M.throw (α := α) e) := by
  intro env s msg; simp [M.throw]; exact he msg

theorem M.noTimeout_ite {α : Type} {c : Prop} [Decidable c] {m₁ m₂ : M α}
    (h₁ : M.noTimeout m₁) (h₂ : M.noTimeout m₂) : M.noTimeout (if c then m₁ else m₂) := by
  split <;> assumption

theorem M.noTimeout_opTime : M.noTimeout opTime := by
  intro env s msg; unfold opTime; split <;> simp

theorem M.noTimeout_opSleep {d : Rat} : M.noTimeout (opSleep d) := by
  intro env s msg; unfold opSleep; split <;> simp

theorem M.noTimeout_opCmd {ev : Event} : M.noTimeout (opCmd ev) := by
  intro env s msg; unfold opCmd; split <;> simp

theorem M.noTimeout_opCmdPipe {ev : Event} : M.noTimeout (opCmdPipe ev) := by
  intro env s msg; unfold opCmdPipe; split <;> simp

theorem M.noTimeout_opInspect {cid : String} : M.noTimeout (opInspect cid) := by
  intro env s msg; unfold opInspect; split <;> simp

theorem noTimeout_composeGetContainerId {svc : String} :
    M.noTimeout (composeGetContainerId svc) :=
  M.noTimeout_bind M.noTimeout_opCmdPipe (fun r => M.noTimeout_pure _)

theorem noTimeout_isServiceUp {svc : String} : M.noTimeout (isServiceUp svc) :=
  M.noTimeout_bind noTimeout_composeGetContainerId
    (fun cid => M.noTimeout_bind
      (M.noTimeout_ite M.noTimeout_opInspect (M.noTimeout_pure _))
      (fun st => M.noTimeout_pure _))

theorem noTimeout_composeRestart {svc : String} : M.noTimeout (composeRestart svc) :=
  M.noTimeout_bind M.noTimeout_opCmd
    (fun e => M.noTimeout_ite (M.noTimeout_throw (fun msg h => by cases h))
      (M.noTimeout_pure _))

theorem M.bind_ok {α β : Type} {m : M α} {f : α → M β} {env : Env} {s s' : St}
    {a : α} (h : m env s = (s', Res.ok a)) : M.bind m f env s = f a env s' := by
  simp [M.bind, h]

theorem M.bind_exc {α β : Type} {m : M α} {f : α → M β} {env : Env} {s s' : St}
    {e : Exc} (h : m env s = (s', Res.exc e)) :
    M.bind m f env s = (s', Res.exc e) := by
  simp [M.bind, h]

theorem M.bind_spin {α β : Type} {m : M α} {f : α → M β} {env : Env} {s s' : St}
    (h : m env s = (s', Res.spin)) : M.bind m f env s = (s', Res.spin) := by
  simp [M.bind, h]

theorem opTime_eval {env : Env} {s : St} (h : env.ki s.ops = false) :
    opTime env s = (incOps s, Res.ok (env.timeAt s.ops)) := by
  unfold opTime; simp [h]

theorem readStartTime_eval (env : Env) (s : St) :
    readStartTime env s = (s, Res.ok s.start_time) := rfl

theorem opSleep_eval {env : Env} {s : St} {d : Rat} (h : env.ki s.ops = false) :
    opSleep d env s =
      ({ incOps s with trace := s.trace ++ [Event.sleep d] }, Res.ok ()) := by
  unfold opSleep; simp [h]

theorem opCmd_eval {env : Env} {s : St} {ev : Event} (h : env.ki s.ops = false) :
    opCmd ev env s =
      ({ incOps s with trace := s.trace ++ [ev] }, Res.ok (env.cmdExit s.ops)) := by
  unfold opCmd; simp [h]

theorem opCmdPipe_eval {env : Env} {s : St} {ev : Event} (h : env.ki s.ops = false) :
    opCmdPipe ev env s =
      ({ incOps s with trace := s.trace ++ [ev] },
       Res.ok (env.cmdExit s.ops, env.cmdOut s.ops)) := by
  unfold opCmdPipe; simp [h]

/-- A validate loop iteration raises TimeoutError only from the timeout
check at its head. -/
theorem validateIterBody_timeout_exc {cfg : Cfg} {svc : String}
    {argsG gossArgs : List String} {env : Env} {s : St} {msg : String}
    (h : ((validateIterBody cfg svc argsG gossArgs) env s).2 = Res.exc (.timeoutError msg)) :
    env.timeAt s.ops - s.start_time > cfg.retry_timeout := by
  by_contra hc
  unfold validateIterBody at h
  by_cases hki : env.ki s.ops = true
  · rw [M.bind_exc (show opTime env s = (incOps s, Res.exc .keyboardInterrupt) by
      unfold opTime; simp [hki])] at h
    simp at h
  · rw [M.bind_ok (opTime_eval (by simpa using hki))] at h
    unfold validateIterRest at h
    rw [M.bind_ok (readStartTime_eval env (incOps s))] at h
    rw [if_neg (by simpa [incOps] using hc)] at h
    have hnt : M.noTimeout
        (M.bind (composeExecSvc svc (["/goss/goss"] ++ argsG ++ ["validate"] ++ gossArgs))
          (fun e =>
            if e > 0 then
              M.bind (opSleep cfg.retry_interval) fun _ =>
              M.bind (isServiceUp svc) fun up =>
              M.bind (if up = true then M.pure () else composeRestart svc) fun _ =>
              M.pure false
            else M.pure true)) := by
      apply M.noTimeout_bind M.noTimeout_opCmd; intro e
      apply M.noTimeout_ite
      · apply M.noTimeout_bind M.noTimeout_opSleep; intro u
        apply M.noTimeout_bind noTimeout_isServiceUp; intro up
        exact M.noTimeout_bind
          (M.noTimeout_ite (M.noTimeout_pure _) noTimeout_composeRestart)
          (fun u2 => M.noTimeout_pure _)
      · exact M.noTimeout_pure _
    exact hnt env (incOps s) msg h

/-- A startup loop iteration raises TimeoutError only from the timeout
check at its head. -/
theorem startupIterBody_timeout_exc {cfg : Cfg} {svc : String}
    {env : Env} {s : St} {msg : String}
    (h : ((startupIterBody cfg svc) env s).2 = Res.exc (.timeoutError msg)) :
    env.timeAt s.ops - s.start_time > cfg.retry_timeout := by
  by_contra hc
  unfold startupIterBody at h
  by_cases hki : env.ki s.ops = true
  · rw [M.bind_exc (show opTime env s = (incOps s, Res.exc .keyboardInterrupt) by
      unfold opTime; simp [hki])] at h
    simp at h
  · rw [M.bind_ok (opTime_eval (by simpa using hki))] at h
    unfold startupIterRest at h
    rw [M.bind_ok (readStartTime_eval env (incOps s))] at h
    rw [if_neg (by simpa [incOps] using hc)] at h
    have hnt : M.noTimeout
        (M.bind (isServiceUp svc) (fun up =>
          if !up then M.bind (opSleep 1) fun _ => M.pure false
          else
            M.bind (getStartTimeSvc svc) fun started1 =>
            M.bind (opSleep cfg.initial_startup) fun _ =>
            M.bind (getStartTimeSvc svc) fun started2 =>
            if started1 = started2 then
              M.bind (opSleep 1) fun _ =>
              M.bind (isServiceUp svc) fun up2 =>
              M.pure up2
            else M.pure false)) := by
      apply M.noTimeout_bind noTimeout_isServiceUp; intro up
      apply M.noTimeout_ite
      · exact M.noTimeout_bind M.noTimeout_opSleep (fun _ => M.noTimeout_pure _)
      · apply M.noTimeout_bind (M.noTimeout_bind noTimeout_composeGetContainerId
          (fun cid => M.noTimeout_bind
            (M.noTimeout_ite M.noTimeout_opInspect (M.noTimeout_pure _))
            (fun st => M.noTimeout_pure _))); intro s1
        apply M.noTimeout_bind M.noTimeout_opSleep; intro u
        apply M.noTimeout_bind (M.noTimeout_bind noTimeout_composeGetContainerId
          (fun cid => M.noTimeout_bind
            (M.noTimeout_ite M.noTimeout_opInspect (M.noTimeout_pure _))
            (fun st => M.noTimeout_pure _))); intro s2
        apply M.noTimeout_ite
        · exact M.noTimeout_bind M.noTimeout_opSleep
            (fun _ => M.noTimeout_bind noTimeout_isServiceUp (fun _ => M.noTimeout_pure _))
        · exact M.noTimeout_pure _
    exact hnt env (incOps s) msg h

/-- Number of goss validate executions recorded in a trace. -/
def validateExecCount (t : List Event) : Nat :=
  t.countP (fun e => match e with
    | Event.compose args => args.contains "validate"
    | _ => false)

/-- A world in which the first goss validate execution is killed by a
signal: subprocess returncode -9, a non-zero exit code. -/
def envNeg : Env :=
  { timeAt := fun _ => 0, ki := fun _ => false,
    cmdExit := fun _ => -9, cmdOut := fun _ => "", inspect := fun _ => none }

/-- A world whose clock jumps past the timeout after one failed validate. -/
def envT1 : Env :=
  { timeAt := fun k => if k < 4 then 0 else 1000, ki := fun _ => false,
    cmdExit := fun k => if k % 4 = 1 then 1 else 0, cmdOut := fun _ => "",
    inspect := fun _ => none }

/-- A world whose clock jumps past the timeout after three failed
validates. -/
def envT2 : Env :=
  { timeAt := fun k => if k < 12 then 0 else 1000, ki := fun _ => false,
    cmdExit := fun k => if k % 4 = 1 then 1 else 0, cmdOut := fun _ => "",
    inspect := fun _ => none }

section
attribute [local semireducible] Rat.sub

/-- C2 counterexample.  First group: a goss validate execution exiting with
the non-zero code -9 (killed by a signal) is not re-run at all: the loop
ends successfully after exactly one execution, because the code re-runs only
on a positive exit code.  Second and third groups: with the identical
configuration, the loop gives up (by TimeoutError) after one execution in
one world and after three executions in another, so it does not re-run a
fixed number of times before giving up; the bound is the retry timeout. -/
theorem validate_retry_counterexample :
    ((validateLoop cfgW "web" ["--gossfile=/goss/goss.yaml"] [] 2 envNeg stW).2 =
        Res.ok () ∧
     envNeg.cmdExit 1 = -9 ∧ ¬ envNeg.cmdExit 1 = 0 ∧
     validateExecCount
       ((validateLoop cfgW "web" ["--gossfile=/goss/goss.yaml"] [] 2 envNeg stW).1.trace) = 1) ∧
    ((validateLoop cfgW "web" ["--gossfile=/goss/goss.yaml"] [] 9 envT1 stW).2 =
        Res.exc (.timeoutError "Timeout reached while waiting for all tests to pass") ∧
     validateExecCount
       ((validateLoop cfgW "web" ["--gossfile=/goss/goss.yaml"] [] 9 envT1 stW).1.trace) = 1) ∧
    ((validateLoop cfgW "web" ["--gossfile=/goss/goss.yaml"] [] 9 envT2 stW).2 =
        Res.exc (.timeoutError "Timeout reached while waiting for all tests to pass") ∧
     validateExecCount
       ((validateLoop cfgW "web" ["--gossfile=/goss/goss.yaml"] [] 9 envT2 stW).1.trace) = 3) := by
  decide

end

/-- C2 as amended.  First conjunct: an iteration whose goss validate exits
with a non-positive code (zero, or negative as for a signal-killed process)
ends the loop successfully at once, with that single execution recorded.
Second conjunct: an iteration within the timeout whose validate exits with a
positive code re-runs the loop: the loop continues at a state recording the
failed execution, the retry_interval sleep, and the service poll (stated
here for a service that is still up, so no restart intervenes).  Third
conjunct: the loop gives up only through the retry timeout: whenever it
raises TimeoutError, some clock reading exceeded start_time plus
retry_timeout; there is no fixed retry count. -/
theorem validate_retry_amended :
    (∀ (cfg : Cfg) (svc : String) (argsG gossArgs : List String) (env : Env)
       (s : St) (fuel : Nat),
       env.ki s.ops = false → env.ki (s.ops + 1) = false →
       ¬ env.timeAt s.ops - s.start_time > cfg.retry_timeout →
       ¬ env.cmdExit (s.ops + 1) > 0 →
       validateLoop cfg svc argsG gossArgs (fuel + 1) env s =
         ({ s with
             ops := s.ops + 2
             trace := s.trace ++ [Event.compose
               (["exec", svc] ++ (["/goss/goss"] ++ argsG ++ ["validate"] ++ gossArgs))] },
          Res.ok ())) ∧
    (∀ (cfg : Cfg) (svc : String) (argsG gossArgs : List String) (env : Env)
       (s : St) (fuel : Nat),
       (∀ j, env.ki j = false) →
       ¬ env.timeAt s.ops - s.start_time > cfg.retry_timeout →
       env.cmdExit (s.ops + 1) > 0 →
       upAt env (s.ops + 3) = true →
       validateLoop cfg svc argsG gossArgs (fuel + 1) env s =
         validateLoop cfg svc argsG gossArgs fuel env
           { s with
               ops := s.ops + 3 + upOps env (s.ops + 3)
               trace := s.trace ++ [Event.compose
                 (["exec", svc] ++ (["/goss/goss"] ++ argsG ++ ["validate"] ++ gossArgs)),
                 Event.sleep cfg.retry_interval,
                 Event.compose ["ps", "--quiet", svc]] }) ∧
    (∀ (cfg : Cfg) (svc : String) (argsG gossArgs : List String) (env : Env)
       (s : St) (fuel : Nat) (msg : String),
       (validateLoop cfg svc argsG gossArgs fuel env s).2 = Res.exc (.timeoutError msg) →
       ∃ k, env.timeAt k - s.start_time > cfg.retry_timeout) := by
  refine ⟨?_, ?_, ?_⟩
  · intro cfg svc argsG gossArgs env s fuel h1 h2 h3 h4
    have hb : validateIterBody cfg svc argsG gossArgs env s =
        ({ s with
            ops := s.ops + 2
            trace := s.trace ++ [Event.compose
              (["exec", svc] ++ (["/goss/goss"] ++ argsG ++ ["validate"] ++ gossArgs))] },
         Res.ok true) := by
      unfold validateIterBody
      rw [M.bind_ok (opTime_eval h1)]
      unfold validateIterRest
      rw [M.bind_ok (readStartTime_eval env (incOps s))]
      rw [if_neg (by simpa [incOps] using h3)]
      unfold composeExecSvc
      rw [M.bind_ok (opCmd_eval (show env.ki (incOps s).ops = false by
        simpa [incOps] using h2))]
      rw [if_neg (by simpa [incOps] using h4)]
      simp [M.pure, incOps]
    show (M.bind (validateIterBody cfg svc argsG gossArgs) fun brk =>
      if brk then M.pure () else validateLoop cfg svc argsG gossArgs fuel) env s = _
    rw [M.bind_ok hb]
    simp [M.pure]
  · intro cfg svc argsG gossArgs env s fuel hall h3 h4 h5
    have hb : validateIterBody cfg svc argsG gossArgs env s =
        ({ s with
            ops := s.ops + 3 + upOps env (s.ops + 3)
            trace := s.trace ++ [Event.compose
              (["exec", svc] ++ (["/goss/goss"] ++ argsG ++ ["validate"] ++ gossArgs)),
              Event.sleep cfg.retry_interval,
              Event.compose ["ps", "--quiet", svc]] },
         Res.ok false) := by
      unfold validateIterBody
      rw [M.bind_ok (opTime_eval (hall _))]
      unfold validateIterRest
      rw [M.bind_ok (readStartTime_eval env (incOps s))]
      rw [if_neg (by simpa [incOps] using h3)]
      unfold composeExecSvc
      rw [M.bind_ok (opCmd_eval (hall _))]
      rw [if_pos (by simpa [incOps] using h4)]
      rw [M.bind_ok (opSleep_eval (hall _))]
      rw [M.bind_ok (isServiceUp_eval (hall _) (hall _))]
      simp only [incOps]
      norm_num
      simp [M.pure, M.bind, upOps, h5]
    show (M.bind (validateIterBody cfg svc argsG gossArgs) fun brk =>
      if brk then M.pure () else validateLoop cfg svc argsG gossArgs fuel) env s = _
    rw [M.bind_ok hb]
    simp
  · intro cfg svc argsG gossArgs env s fuel
    induction fuel generalizing s with
    | zero => intro msg h; simp [validateLoop, M.spinOut] at h
    | succ n ih =>
      intro msg h
      replace h : ((M.bind (validateIterBody cfg svc argsG gossArgs) fun brk =>
        if brk then M.pure () else validateLoop cfg svc argsG gossArgs n) env s).2 =
          Res.exc (.timeoutError msg) := h
      rcases hb : validateIterBody cfg svc argsG gossArgs env s with ⟨s', r⟩
      cases r with
      | exc e =>
        rw [M.bind_exc hb] at h
        simp at h
        subst h
        exact ⟨s.ops, validateIterBody_timeout_exc (by rw [hb])⟩
      | spin =>
        have := @noSpin_validateIterBody cfg svc argsG gossArgs env s
        rw [hb] at this; exact absurd rfl this
      | ok b =>
        rw [M.bind_ok hb] at h
        cases b with
        | true => simp [M.pure] at h
        | false =>
          simp only [Bool.false_eq_true, if_false] at h
          have hst : s'.start_time = s.start_time := by
            have := @keepsStart_validateIterBody cfg svc argsG gossArgs env s
            rw [hb] at this; exact this
          obtain ⟨k, hk⟩ := ih s' msg h
          rw [hst] at hk
          exact ⟨k, hk⟩

/-- Events that are not _shutdown entries. -/
def notEnter (e : Event) : Prop :=
  match e with
  | Event.shutdownEnter _ => False
  | _ => True

/-- The sequence of forced_shutdown flags at successive _shutdown entries
recorded in a trace. -/
def entersOf (t : List Event) : List Bool :=
  t.filterMap (fun e => match e with
    | Event.shutdownEnter b => some b
    | _ => none)

theorem entersOf_append (t1 t2 : List Event) :
    entersOf (t1 ++ t2) = entersOf t1 ++ entersOf t2 :=
  List.filterMap_append _ _ _

theorem entersOf_of_notEnter {δ : List Event} (h : ∀ e ∈ δ, notEnter e) :
    entersOf δ = [] := by
  induction δ with
  | nil => rfl
  | cons e rest ih =>
    have he := h e (List.mem_cons_self _ _)
    have hrest := ih (fun x hx => h x (List.mem_cons_of_mem _ hx))
    cases e <;> simp [entersOf] at hrest ⊢ <;> first
      | exact hrest
      | exact absurd he (by simp [notEnter])

theorem frame_tryCatchExc {α : Type} {P : Event → Prop} {m : M α}
    {handler : Exc → M α} (hm : M.frame P m) (hh : ∀ e, M.frame P (handler e)) :
    M.frame P (tryCatchExc m handler) := by
  intro env s
  obtain ⟨h1, h2, δ, h3, h4⟩ := hm env s
  rcases hres : m env s with ⟨s', r⟩
  rw [hres] at h1 h2 h3
  cases r with
  | ok a => exact ⟨by simp only [tryCatchExc, hres]; exact h1,
      by simp only [tryCatchExc, hres]; exact h2, δ,
      by simp only [tryCatchExc, hres]; exact h3, h4⟩
  | spin => exact ⟨by simp only [tryCatchExc, hres]; exact h1,
      by simp only [tryCatchExc, hres]; exact h2, δ,
      by simp only [tryCatchExc, hres]; exact h3, h4⟩
  | exc e =>
    by_cases hex : Exc.isException e = true
    · obtain ⟨g1, g2, δ2, g3, g4⟩ := hh e env s'
      refine ⟨?_, ?_, δ ++ δ2, ?_, ?_⟩
      · simp only [tryCatchExc, hres, hex, if_pos]; rw [g1, h1]
      · simp only [tryCatchExc, hres, hex, if_pos]; exact le_trans h2 g2
      · simp only [tryCatchExc, hres, hex, if_pos]
        rw [g3, h3, List.append_assoc]
      · intro x hx
        rcases List.mem_append.mp hx with hx | hx
        · exact h4 x hx
        · exact g4 x hx
    · exact ⟨by simp only [tryCatchExc, hres, hex, if_neg]; exact h1,
        by simp only [tryCatchExc, hres, hex, if_neg]; exact h2, δ,
        by simp only [tryCatchExc, hres, hex, if_neg]; exact h3, h4⟩

theorem frame_saveLogsLoop {P : Event → Prop} {cfg : Cfg}
    (hw : ∀ p, P (Event.writeLog p))
    (hl : ∀ svcn, P (Event.compose ["logs", svcn])) :
    ∀ l, M.frame P (saveLogsLoop cfg l) := by
  intro l
  induction l with
  | nil => exact M.frame_pure _
  | cons svc rest ih =>
    exact M.frame_bind (M.frame_opWrite (hw _))
      (fun _ => M.frame_bind
        (M.frame_bind (M.frame_opCmdPipe (hl _)) (fun r => M.frame_pure _))
        (fun _ => ih))

theorem frame_shutdownBody {P : Event → Prop} {cfg : Cfg}
    (hmk : P (Event.makedirs cfg.log_path))
    (hps : P (Event.compose ["ps", "--services"]))
    (hw : ∀ p, P (Event.writeLog p))
    (hl : ∀ svcn, P (Event.compose ["logs", svcn]))
    (hst : P (Event.compose ["stop"]))
    (hdn : P (Event.compose ["down", "--volumes"])) :
    M.frame P (shutdownBody cfg) := by
  unfold shutdownBody
  apply M.frame_bind
  · apply M.frame_ite (M.frame_pure _)
    apply M.frame_bind
    · exact M.frame_bind M.frame_readLogDirExists
        (fun ex => M.frame_ite (M.frame_pure _) (M.frame_opMakedirs hmk))
    · intro u
      exact frame_tryCatchExc
        (M.frame_bind
          (M.frame_bind (M.frame_opCmdPipe hps) (fun r => M.frame_pure _))
          (fun l => frame_saveLogsLoop hw hl l))
        (fun e => M.frame_pure _)
  · intro u
    exact M.frame_bind (frame_composeStop hst)
      (fun e => frame_composeDown hdn)

/-- Any-event frame of the shutdown body: forced_shutdown is preserved and
no shutdownEnter event is emitted. -/
theorem shutdownBody_frame_notEnter {cfg : Cfg} :
    M.frame notEnter (shutdownBody cfg) :=
  frame_shutdownBody trivial trivial (fun p => trivial) (fun svcn => trivial)
    trivial trivial

theorem M.noSpin_opWrite {p : String} : M.noSpin (opWrite p) := by
  intro env s; unfold opWrite; split <;> simp

theorem M.noSpin_opMakedirs {p : String} : M.noSpin (opMakedirs p) := by
  intro env s; unfold opMakedirs; split <;> simp

theorem M.noSpin_readLogDirExists : M.noSpin readLogDirExists := by
  intro env s; simp [readLogDirExists]

theorem noSpin_tryCatchExc {α : Type} {m : M α} {handler : Exc → M α}
    (hm : M.noSpin m) (hh : ∀ e, M.noSpin (handler e)) :
    M.noSpin (tryCatchExc m handler) := by
  intro env s
  have h1 := hm env s
  rcases hres : m env s with ⟨s', r⟩
  rw [hres] at h1
  cases r with
  | ok a => simp [tryCatchExc, hres]
  | spin => exact absurd rfl h1
  | exc e =>
    by_cases hex : Exc.isException e = true
    · simp only [tryCatchExc, hres, hex, if_pos]; exact hh e env s'
    · simp [tryCatchExc, hres, hex]

theorem noSpin_saveLogsLoop {cfg : Cfg} : ∀ l, M.noSpin (saveLogsLoop cfg l) := by
  intro l
  induction l with
  | nil => exact M.noSpin_pure _
  | cons svc rest ih =>
    exact M.noSpin_bind M.noSpin_opWrite
      (fun _ => M.noSpin_bind
        (M.noSpin_bind M.noSpin_opCmdPipe (fun r => M.noSpin_pure _))
        (fun _ => ih))

theorem noSpin_composeStop : M.noSpin composeStop :=
  M.noSpin_bind M.noSpin_opCmd
    (fun e => M.noSpin_ite (M.noSpin_throw _) (M.noSpin_pure _))

theorem noSpin_composeDown : M.noSpin composeDown :=
  M.noSpin_bind M.noSpin_opCmd
    (fun e => M.noSpin_ite (M.noSpin_throw _) (M.noSpin_pure _))

theorem noSpin_shutdownBody {cfg : Cfg} : M.noSpin (shutdownBody cfg) := by
  unfold shutdownBody
  apply M.noSpin_bind
  · apply M.noSpin_ite (M.noSpin_pure _)
    apply M.noSpin_bind
    · exact M.noSpin_bind M.noSpin_readLogDirExists
        (fun ex => M.noSpin_ite (M.noSpin_pure _) M.noSpin_opMakedirs)
    · intro u
      exact noSpin_tryCatchExc
        (M.noSpin_bind
          (M.noSpin_bind M.noSpin_opCmdPipe (fun r => M.noSpin_pure _))
          (fun l => noSpin_saveLogsLoop l))
        (fun e => M.noSpin_pure _)
  · intro u
    exact M.noSpin_bind noSpin_composeStop (fun e => noSpin_composeDown)

/-- One unfolding of _shutdown. -/
theorem shutdown_succ (cfg : Cfg) (fuel : Nat) (env : Env) (s : St) :
    shutdown cfg (fuel + 1) env s =
      match shutdownBody cfg env (shutdownEnterSt s) with
      | (s', Res.exc .keyboardInterrupt) =>
        if s'.forced_shutdown then (s', Res.exc (.systemExit 1))
        else shutdown cfg fuel env { s' with forced_shutdown := true }
      | r => r := rfl

/-- Once forced_shutdown is set, _shutdown never recurses: extra fuel is
irrelevant. -/
theorem shutdown_forced_fuel (cfg : Cfg) (env : Env) :
    ∀ (fuel : Nat) (s' : St), s'.forced_shutdown = true →
      shutdown cfg (fuel + 1) env s' = shutdown cfg 1 env s' := by
  intro fuel s' hf'
  rw [shutdown_succ, shutdown_succ]
  rcases hb : shutdownBody cfg env (shutdownEnterSt s') with ⟨s2, r2⟩
  have h2 : s2.forced_shutdown = true := by
    have := (@shutdownBody_frame_notEnter cfg env (shutdownEnterSt s')).1
    rw [hb] at this
    simpa [shutdownEnterSt, hf'] using this
  cases r2 with
  | ok a => rfl
  | spin => rfl
  | exc e => cases e <;> simp [h2]

/-- C3: teardown is idempotent under interrupt.  Starting un-forced: when
the _shutdown body is not interrupted there is exactly one entry (with
forced_shutdown clear).  When a KeyboardInterrupt reaches the handler, the
teardown body is re-run exactly once, with forced_shutdown set (the trace
carries exactly the two entries, first clear then forced); a second
interrupt during that forced re-run terminates the process with exit status
1, while an uninterrupted re-run ends the shutdown.  Fuel two always
suffices and extra recursion depth is never used, so the teardown never
re-enters itself more than one level deep. -/
theorem shutdown_interrupt_reenters_once (cfg : Cfg) (env : Env) (s : St)
    (hf : s.forced_shutdown = false) :
    ((shutdownBody cfg env (shutdownEnterSt s)).2 ≠ Res.exc .keyboardInterrupt →
      shutdown cfg 2 env s = shutdownBody cfg env (shutdownEnterSt s) ∧
      entersOf (shutdownBody cfg env (shutdownEnterSt s)).1.trace =
        entersOf s.trace ++ [false]) ∧
    (∀ s1, shutdownBody cfg env (shutdownEnterSt s) = (s1, Res.exc .keyboardInterrupt) →
      entersOf (shutdownBody cfg env
          (shutdownEnterSt { s1 with forced_shutdown := true })).1.trace =
        entersOf s.trace ++ [false, true] ∧
      ((shutdownBody cfg env (shutdownEnterSt { s1 with forced_shutdown := true })).2 =
          Res.exc .keyboardInterrupt →
        shutdown cfg 2 env s =
          ((shutdownBody cfg env (shutdownEnterSt { s1 with forced_shutdown := true })).1,
           Res.exc (.systemExit 1))) ∧
      ((shutdownBody cfg env (shutdownEnterSt { s1 with forced_shutdown := true })).2 ≠
          Res.exc .keyboardInterrupt →
        shutdown cfg 2 env s =
          shutdownBody cfg env (shutdownEnterSt { s1 with forced_shutdown := true }))) ∧
    ((shutdown cfg 2 env s).2 ≠ Res.spin) ∧
    (∀ fuel, shutdown cfg (fuel + 2) env s = shutdown cfg 2 env s) := by
  have frameAt : ∀ sx : St, (shutdownBody cfg env (shutdownEnterSt sx)).1.forced_shutdown =
      sx.forced_shutdown ∧
      ∃ δ, (shutdownBody cfg env (shutdownEnterSt sx)).1.trace =
        sx.trace ++ [Event.shutdownEnter sx.forced_shutdown] ++ δ ∧ ∀ e ∈ δ, notEnter e := by
    intro sx
    obtain ⟨h1, h2, δ, h3, h4⟩ :=
      @shutdownBody_frame_notEnter cfg env (shutdownEnterSt sx)
    exact ⟨by simpa [shutdownEnterSt] using h1, δ,
      by simpa [shutdownEnterSt] using h3, h4⟩
  have entersAt : ∀ sx : St, entersOf (shutdownBody cfg env (shutdownEnterSt sx)).1.trace =
      entersOf sx.trace ++ [sx.forced_shutdown] := by
    intro sx
    obtain ⟨h1, δ, h3, h4⟩ := frameAt sx
    rw [h3, entersOf_append, entersOf_append, entersOf_of_notEnter h4]
    simp [entersOf]
  refine ⟨?_, ?_, ?_, ?_⟩
  · intro hne
    rcases hb : shutdownBody cfg env (shutdownEnterSt s) with ⟨s1, r1⟩
    rw [hb] at hne
    refine ⟨?_, by have := entersAt s; rw [hb] at this; simpa [hf] using this⟩
    rw [shutdown_succ, hb]
    cases r1 with
    | ok a => rfl
    | spin => rfl
    | exc e => cases e <;> simp_all
  · intro s1 hb
    have hforced1 : s1.forced_shutdown = false := by
      have := (frameAt s).1
      rw [hb] at this
      rw [← hf]; exact this
    have henters2 : entersOf (shutdownBody cfg env
        (shutdownEnterSt { s1 with forced_shutdown := true })).1.trace =
        entersOf s.trace ++ [false, true] := by
      have h2 := entersAt { s1 with forced_shutdown := true }
      have h1 := entersAt s
      rw [hb] at h1
      simp only [St.mk.injEq] at h2
      rw [h2]
      have : entersOf s1.trace = entersOf s.trace ++ [false] := by
        simpa [hf] using h1
      simp [this]
    refine ⟨henters2, ?_, ?_⟩
    · intro hKI2
      rcases hb2 : shutdownBody cfg env
          (shutdownEnterSt { s1 with forced_shutdown := true }) with ⟨s2, r2⟩
      rw [hb2] at hKI2
      simp only at hKI2
      have h2f : s2.forced_shutdown = true := by
        have := (frameAt { s1 with forced_shutdown := true }).1
        rw [hb2] at this
        exact this
      rw [shutdown_succ, hb]
      simp only [hforced1, Bool.false_eq_true, if_false]
      rw [shutdown_succ, hb2]
      subst hKI2
      simp [h2f]
    · intro hne2
      rcases hb2 : shutdownBody cfg env
          (shutdownEnterSt { s1 with forced_shutdown := true }) with ⟨s2, r2⟩
      rw [hb2] at hne2
      rw [shutdown_succ, hb]
      simp only [hforced1, Bool.false_eq_true, if_false]
      rw [shutdown_succ, hb2]
      cases r2 with
      | ok a => rfl
      | spin => rfl
      | exc e => cases e <;> simp_all
  · rcases hb : shutdownBody cfg env (shutdownEnterSt s) with ⟨s1, r1⟩
    have hns1 : r1 ≠ Res.spin := by
      have := @noSpin_shutdownBody cfg env (shutdownEnterSt s)
      rw [hb] at this; exact this
    rw [shutdown_succ, hb]
    cases r1 with
    | ok a => simp
    | spin => exact absurd rfl hns1
    | exc e =>
      cases e <;> try simp
      · -- keyboardInterrupt: recursion into the forced run
        have hforced1 : s1.forced_shutdown = false := by
          have := (frameAt s).1
          rw [hb] at this
          rw [← hf]; exact this
        simp only [hforced1, Bool.false_eq_true, if_false]
        rcases hb2 : shutdownBody cfg env
            (shutdownEnterSt { s1 with forced_shutdown := true }) with ⟨s2, r2⟩
        have hns2 : r2 ≠ Res.spin := by
          have := @noSpin_shutdownBody cfg env
            (shutdownEnterSt { s1 with forced_shutdown := true })
          rw [hb2] at this; exact this
        rw [shutdown_succ, hb2]
        cases r2 with
        | ok a => simp
        | spin => exact absurd rfl hns2
        | exc e2 =>
          have h2f : s2.forced_shutdown = true := by
            have := (frameAt { s1 with forced_shutdown := true }).1
            rw [hb2] at this; exact this
          cases e2 <;> simp [h2f]
  · intro fuel
    rw [shutdown_succ, shutdown_succ]
    rcases hb : shutdownBody cfg env (shutdownEnterSt s) with ⟨s1, r1⟩
    cases r1 with
    | ok a => rfl
    | spin => rfl
    | exc e =>
      cases e <;> try rfl
      · -- keyboardInterrupt
        by_cases h1f : s1.forced_shutdown = true
        · simp [h1f]
        · simp only [Bool.not_eq_true] at h1f
          simp only [h1f, Bool.false_eq_true, if_false]
          exact shutdown_forced_fuel cfg env fuel _ rfl

theorem shutdown_interrupt_witness :
    (shutdownBody cfgW envW (shutdownEnterSt stW)).2 ≠ Res.exc .keyboardInterrupt ∧
    (shutdown cfgW 2 envW stW = shutdownBody cfgW envW (shutdownEnterSt stW) ∧
     entersOf (shutdownBody cfgW envW (shutdownEnterSt stW)).1.trace =
       entersOf stW.trace ++ [false]) :=
  ⟨by decide, (shutdown_interrupt_reenters_once cfgW envW stW rfl).1 (by decide)⟩

section
attribute [local semireducible] Rat.sub

theorem validate_retry_amended_witness :
    validateLoop cfgW "web" ["--gossfile=/goss/goss.yaml"] [] 1 envNeg stW =
      ({ stW with
          ops := stW.ops + 2
          trace := stW.trace ++ [Event.compose
            (["exec", "web"] ++ (["/goss/goss"] ++ ["--gossfile=/goss/goss.yaml"]
              ++ ["validate"] ++ []))] },
       Res.ok ()) :=
  validate_retry_amended.1 cfgW "web" ["--gossfile=/goss/goss.yaml"] [] envNeg stW 0
    rfl rfl (by norm_num [envNeg, stW, cfgW]) (by norm_num [envNeg])

end

/-- The forced_shutdown flag and the shutdown entries recorded by one
execution of the _shutdown body entered from state sx. -/
theorem shutdownBody_enters (cfg : Cfg) (env : Env) (sx : St) :
    (shutdownBody cfg env (shutdownEnterSt sx)).1.forced_shutdown = sx.forced_shutdown ∧
    entersOf (shutdownBody cfg env (shutdownEnterSt sx)).1.trace =
      entersOf sx.trace ++ [sx.forced_shutdown] := by
  obtain ⟨h1, h2, δ, h3, h4⟩ :=
    @shutdownBody_frame_notEnter cfg env (shutdownEnterSt sx)
  constructor
  · simpa [shutdownEnterSt] using h1
  · rw [show (shutdownEnterSt sx).trace = sx.trace ++ [Event.shutdownEnter sx.forced_shutdown]
      from rfl] at h3
    rw [h3, entersOf_append, entersOf_append, entersOf_of_notEnter h4]
    simp [entersOf]

/-- From an un-forced state, a full _shutdown records either exactly one
entry (un-forced) or exactly two entries (the second forced). -/
theorem shutdown_two_enters (cfg : Cfg) (env : Env) (s1 : St)
    (hf : s1.forced_shutdown = false) :
    entersOf ((shutdown cfg 2 env s1).1.trace) = entersOf s1.trace ++ [false] ∨
    entersOf ((shutdown cfg 2 env s1).1.trace) = entersOf s1.trace ++ [false, true] := by
  rw [shutdown_succ]
  rcases hb : shutdownBody cfg env (shutdownEnterSt s1) with ⟨sA, rA⟩
  have h1 := shutdownBody_enters cfg env s1
  rw [hb] at h1
  obtain ⟨h1f, h1e⟩ := h1
  dsimp only at h1f h1e
  rw [hf] at h1f h1e
  cases rA with
  | ok a => exact Or.inl h1e
  | spin => exact Or.inl h1e
  | exc e =>
    cases e <;> try exact Or.inl h1e
    · -- keyboardInterrupt
      dsimp only
      rw [if_neg (by simp [h1f])]
      rw [shutdown_succ]
      rcases hb2 : shutdownBody cfg env
          (shutdownEnterSt { sA with forced_shutdown := true }) with ⟨sB, rB⟩
      have h2 := shutdownBody_enters cfg env { sA with forced_shutdown := true }
      rw [hb2] at h2
      obtain ⟨h2f, h2e⟩ := h2
      dsimp only at h2f h2e
      have h2e' : entersOf sB.trace = entersOf s1.trace ++ [false, true] := by
        rw [h2e, h1e]; simp
      cases rB with
      | ok a => exact Or.inr h2e'
      | spin => exact Or.inr h2e'
      | exc e2 =>
        cases e2 <;> try exact Or.inr h2e'
        · dsimp only
          rw [if_pos (by simp [h2f])]
          exact Or.inr h2e'

theorem catchHandlers_fst (m : M Int) (env : Env) (s : St) :
    (catchHandlers m env s).1 = (m env s).1 := by
  rcases hres : m env s with ⟨s', r⟩
  cases r with
  | ok a => simp [catchHandlers, hres]
  | spin => simp [catchHandlers, hres]
  | exc e =>
    by_cases hex : Exc.isException e = true
    · simp [catchHandlers, hres, hex]
    · by_cases hki : e = Exc.keyboardInterrupt
      · simp [catchHandlers, hres, hex, hki, Exc.isException]
      · simp [catchHandlers, hres, hex, hki]

theorem catchHandlers_spin {m : M Int} {env : Env} {s : St}
    (h : (m env s).2 ≠ Res.spin) : (catchHandlers m env s).2 ≠ Res.spin := by
  rcases hres : m env s with ⟨s', r⟩
  rw [hres] at h
  cases r with
  | ok a => simp [catchHandlers, hres]
  | spin => exact absurd rfl h
  | exc e =>
    by_cases hex : Exc.isException e = true
    · simp [catchHandlers, hres, hex]
    · by_cases hki : e = Exc.keyboardInterrupt
      · simp [catchHandlers, hres, hex, hki, Exc.isException]
      · simp [catchHandlers, hres, hex, hki]

theorem tryFinallyM_fst {α : Type} {m : M α} {fin : M Unit} {env : Env} {s : St}
    (h : (m env s).2 ≠ Res.spin) :
    (tryFinallyM m fin env s).1 = (fin env (m env s).1).1 := by
  unfold tryFinallyM
  rcases hres : m env s with ⟨s', r⟩
  rw [hres] at h
  cases r with
  | spin => exact absurd rfl h
  | ok a =>
    rcases hfin : fin env s' with ⟨s'', rf⟩
    cases rf with
    | ok u => cases u; simp [hfin]
    | exc e => simp [hfin]
    | spin => simp [hfin]
  | exc e =>
    rcases hfin : fin env s' with ⟨s'', rf⟩
    cases rf with
    | ok u => cases u; simp [hfin]
    | exc e2 => simp [hfin]
    | spin => simp [hfin]

theorem frame_notEnter_startup (cfg : Cfg) (svc : String) (fuel : Nat) :
    M.frame notEnter (startup cfg svc fuel) := by
  unfold startup
  apply M.frame_bind M.frame_opTime; intro t
  apply M.frame_bind M.frame_setStartTime; intro u
  apply M.frame_bind (frame_composeDown trivial); intro u1
  apply M.frame_bind (frame_composeUp trivial); intro u2
  apply M.frame_bind (frame_startupLoop trivial trivial trivial fuel); intro u3
  apply M.frame_bind (frame_composeGetContainerId trivial); intro cid
  exact frame_dockerCpCmd trivial

theorem frame_notEnter_runBody (cfg : Cfg) (svc : String) (fuel : Nat) :
    M.frame notEnter (runBody cfg svc fuel) := by
  unfold runBody
  apply M.frame_bind (frame_notEnter_startup cfg svc fuel); intro u
  apply M.frame_bind
  · exact M.frame_ite
      (frame_runGossValidate trivial trivial trivial trivial trivial fuel)
      (M.frame_pure _)
  · intro u1
    exact M.frame_bind
      (frame_runGossValidate trivial trivial trivial trivial trivial fuel)
      (fun u2 => M.frame_pure _)

theorem frame_notEnter_editBody (cfg : Cfg) (svc : String) (fuel : Nat) :
    M.frame notEnter (editBody cfg svc fuel) := by
  unfold editBody
  apply M.frame_bind (frame_notEnter_startup cfg svc fuel); intro u
  apply M.frame_bind (frame_composeGetContainerId trivial); intro cid
  cases cid with
  | none => exact M.frame_throw _
  | some c =>
    apply M.frame_bind (M.frame_opCmd trivial); intro e
    exact M.frame_bind (frame_dockerCpCmd trivial) (fun u2 => M.frame_pure _)

/-- C4: everything is always torn down.  For every invocation of DCGoss.run
and DCGoss.edit whose body terminates (normally, with an exception, or with
a keyboard interrupt, over every oracle behaviour), the finally clause
executes _shutdown exactly once at the end: the final trace records exactly
one un-forced _shutdown entry after the body events, possibly followed by
the single forced re-entry of an interrupted teardown, and nothing else. -/
theorem run_edit_teardown_exactly_once :
    ∀ (cfg : Cfg) (svc : String) (fuel : Nat) (env : Env) (s : St),
      s.forced_shutdown = false →
      ((runBody cfg svc fuel env s).2 ≠ Res.spin →
        entersOf ((run cfg svc fuel env s).1.trace) = entersOf s.trace ++ [false] ∨
        entersOf ((run cfg svc fuel env s).1.trace) = entersOf s.trace ++ [false, true]) ∧
      ((editBody cfg svc fuel env s).2 ≠ Res.spin →
        entersOf ((edit cfg svc fuel env s).1.trace) = entersOf s.trace ++ [false] ∨
        entersOf ((edit cfg svc fuel env s).1.trace) = entersOf s.trace ++ [false, true]) := by
  intro cfg svc fuel env s hf
  constructor
  · intro hns
    have hfst : (run cfg svc fuel env s).1 =
        (shutdown cfg 2 env ((catchHandlers (runBody cfg svc fuel) env s).1)).1 :=
      tryFinallyM_fst (catchHandlers_spin hns)
    rw [hfst, catchHandlers_fst]
    obtain ⟨hbf, hbo, δ, hbt, hbδ⟩ := frame_notEnter_runBody cfg svc fuel env s
    have hf1 : (runBody cfg svc fuel env s).1.forced_shutdown = false := by
      rw [hbf, hf]
    have hen1 : entersOf (runBody cfg svc fuel env s).1.trace = entersOf s.trace := by
      rw [hbt, entersOf_append, entersOf_of_notEnter hbδ, List.append_nil]
    rcases shutdown_two_enters cfg env _ hf1 with h | h
    · left; rw [h, hen1]
    · right; rw [h, hen1]
  · intro hns
    have hfst : (edit cfg svc fuel env s).1 =
        (shutdown cfg 2 env ((catchHandlers (editBody cfg svc fuel) env s).1)).1 :=
      tryFinallyM_fst (catchHandlers_spin hns)
    rw [hfst, catchHandlers_fst]
    obtain ⟨hbf, hbo, δ, hbt, hbδ⟩ := frame_notEnter_editBody cfg svc fuel env s
    have hf1 : (editBody cfg svc fuel env s).1.forced_shutdown = false := by
      rw [hbf, hf]
    have hen1 : entersOf (editBody cfg svc fuel env s).1.trace = entersOf s.trace := by
      rw [hbt, entersOf_append, entersOf_of_notEnter hbδ, List.append_nil]
    rcases shutdown_two_enters cfg env _ hf1 with h | h
    · left; rw [h, hen1]
    · right; rw [h, hen1]

section
attribute [local semireducible] Rat.sub

theorem run_edit_teardown_witness :
    (runBody cfgW "web" 1 envW stW).2 ≠ Res.spin ∧
    (entersOf ((run cfgW "web" 1 envW stW).1.trace) = entersOf stW.trace ++ [false] ∨
     entersOf ((run cfgW "web" 1 envW stW).1.trace) = entersOf stW.trace ++ [false, true]) :=
  ⟨by decide,
   (run_edit_teardown_exactly_once cfgW "web" 1 envW stW rfl).1 (by decide)⟩

end

/-- A concrete host file system: goss.yaml with mode 420 and a variables
file with mode 384; no wait file. -/
def fsW : FS := fun p =>
  if p = "h/goss.yaml" then some { mode := 420, content := 1 }
  else if p = "h/goss_vars.yaml" then some { mode := 384, content := 2 }
  else none

/-- Concrete contents of the container /goss directory after an edit. -/
def contW : String → Option HFile := fun n =>
  if n = "goss" then some { mode := 511, content := 3 }
  else if n = "goss.yaml" then some { mode := 438, content := 4 }
  else if n = "goss_vars.yaml" then some { mode := 438, content := 5 }
  else none

/-- The file system _copy_out produces on the concrete inputs. -/
def fsOutW : FS :=
  match copyOut "h/goss.yaml" "h/goss_vars.yaml" "h/goss_wait.yaml" 0 contW fsW with
  | .ok fs => fs
  | .error _ => fun _ => none

theorem copy_out_preserves_modes_witness :
    (fsOutW "h/goss.yaml").map HFile.mode = (fsW "h/goss.yaml").map HFile.mode ∧
    (fsOutW "h/goss_vars.yaml").map HFile.mode = (fsW "h/goss_vars.yaml").map HFile.mode :=
  have h := copy_out_preserves_modes "h/goss.yaml" "h/goss_vars.yaml" "h/goss_wait.yaml"
    0 contW fsW fsOutW (by decide) (by decide) (by decide)
    ⟨by decide, by decide, by decide, by decide⟩
    ⟨by decide, by decide, by decide, by decide⟩
    ⟨by decide, by decide, by decide, by decide⟩ rfl
  ⟨h.1, h.2.1 (by decide)⟩

/-- The log files opened for writing, in order, recorded in a trace. -/
def writeLogPaths (t : List Event) : List String :=
  t.filterMap (fun e => match e with
    | Event.writeLog p => some p
    | _ => none)

theorem writeLogPaths_append (t1 t2 : List Event) :
    writeLogPaths (t1 ++ t2) = writeLogPaths t1 ++ writeLogPaths t2 :=
  List.filterMap_append _ _ _

/-- The service names DockerCompose.get_services reports when its ps
command runs at operation index k. -/
def servicesAt (env : Env) (k : Nat) : List String :=
  if env.cmdExit k = 0 then pySplitlines (env.cmdOut k) else []

/-- Trace-only guarantee of a computation. -/
def M.emitsOnly {α : Type} (P : Event → Prop) (m : M α) : Prop :=
  ∀ env s, ∃ δ, (m env s).1.trace = s.trace ++ δ ∧ ∀ e ∈ δ, P e

theorem M.frame_emitsOnly {α : Type} {P : Event → Prop} {m : M α}
    (h : M.frame P m) : M.emitsOnly P m := by
  intro env s
  obtain ⟨h1, h2, δ, h3, h4⟩ := h env s
  exact ⟨δ, h3, h4⟩

/-- Events that are not log-file writes. -/
def notWriteLog (e : Event) : Prop :=
  match e with
  | Event.writeLog _ => False
  | _ => True

theorem writeLogPaths_of_notWriteLog {δ : List Event}
    (h : ∀ e ∈ δ, notWriteLog e) : writeLogPaths δ = [] := by
  induction δ with
  | nil => rfl
  | cons e rest ih =>
    have he := h e (List.mem_cons_self _ _)
    have hrest := ih (fun x hx => h x (List.mem_cons_of_mem _ hx))
    cases e <;> simp [writeLogPaths] at hrest ⊢ <;> first
      | exact hrest
      | exact absurd he (by simp [notWriteLog])

/-- When NO_LOGS is in effect, the shutdown body writes no log file. -/
theorem shutdownBody_noLogs_frame {cfg : Cfg}
    (hnl : lowerIn1True cfg.no_logs = true) :
    M.frame notWriteLog (shutdownBody cfg) := by
  unfold shutdownBody
  apply M.frame_bind
  · rw [if_pos hnl]
    exact M.frame_pure _
  · intro u
    exact M.frame_bind (frame_composeStop trivial)
      (fun e => frame_composeDown trivial)

/-- A _shutdown of any depth extends the trace only by events satisfying P,
when the body does and entries do. -/
theorem shutdown_emitsOnly {P : Event → Prop} {cfg : Cfg}
    (hbody : M.emitsOnly P (shutdownBody cfg))
    (hent : ∀ b, P (Event.shutdownEnter b)) :
    ∀ fuel, M.emitsOnly P (shutdown cfg fuel) := by
  intro fuel
  induction fuel with
  | zero => exact fun env s => ⟨[], by simp [shutdown, M.spinOut], by simp⟩
  | succ n ih =>
    intro env s
    rw [shutdown_succ]
    obtain ⟨δ, h3, h4⟩ := hbody env (shutdownEnterSt s)
    have henter : (shutdownEnterSt s).trace = s.trace ++ [Event.shutdownEnter s.forced_shutdown] := rfl
    rcases hb : shutdownBody cfg env (shutdownEnterSt s) with ⟨s1, r1⟩
    rw [hb] at h3
    have h3' : s1.trace = s.trace ++ (Event.shutdownEnter s.forced_shutdown :: δ) := by
      rw [h3, henter]; simp
    have hP' : ∀ e ∈ Event.shutdownEnter s.forced_shutdown :: δ, P e := by
      intro e he
      rcases List.mem_cons.mp he with rfl | he
      · exact hent _
      · exact h4 e he
    cases r1 with
    | ok a => exact ⟨_, h3', hP'⟩
    | spin => exact ⟨_, h3', hP'⟩
    | exc e =>
      cases e <;> try exact ⟨_, h3', hP'⟩
      · -- keyboardInterrupt
        dsimp only
        by_cases hforced : s1.forced_shutdown = true
        · rw [if_pos hforced]
          exact ⟨_, h3', hP'⟩
        · rw [if_neg hforced]
          obtain ⟨δ2, g3, g4⟩ := ih env { s1 with forced_shutdown := true }
          refine ⟨(Event.shutdownEnter s.forced_shutdown :: δ) ++ δ2, ?_, ?_⟩
          · rw [g3]
            show s1.trace ++ δ2 = _
            rw [h3']; simp
          · intro e he
            rcases List.mem_append.mp he with he | he
            · exact hP' e he
            · exact g4 e he

/-- Deterministic run of the log-saving for loop when no interrupt is
delivered: one log file opened per service name, in order. -/
theorem saveLogsLoop_eval {cfg : Cfg} {env : Env}
    (hall : ∀ j, env.ki j = false) :
    ∀ (l : List String) (s : St), ∃ s',
      saveLogsLoop cfg l env s = (s', Res.ok ()) ∧
      writeLogPaths s'.trace = writeLogPaths s.trace ++
        l.map (fun svc => cfg.log_path ++ "/" ++ svc ++ ".log") ∧
      (∀ e ∈ s.trace, e ∈ s'.trace) := by
  intro l
  induction l with
  | nil => intro s; exact ⟨s, rfl, by simp, fun e he => he⟩
  | cons svc rest ih =>
    intro s
    have hw : opWrite (cfg.log_path ++ "/" ++ svc ++ ".log") env s =
        ({ incOps s with trace := s.trace ++
            [Event.writeLog (cfg.log_path ++ "/" ++ svc ++ ".log")] }, Res.ok ()) := by
      unfold opWrite; simp [hall]
    set sA : St := { incOps s with trace := s.trace ++
      [Event.writeLog (cfg.log_path ++ "/" ++ svc ++ ".log")] } with hsA
    have hl : composeLog svc env sA =
        ({ incOps sA with trace := sA.trace ++ [Event.compose ["logs", svc]] },
         Res.ok (if env.cmdExit sA.ops = 0 then (pySplitlines (env.cmdOut sA.ops)).drop 1 else [])) := by
      unfold composeLog
      rw [M.bind_ok (opCmdPipe_eval (hall _))]
      rfl
    set sB : St := { incOps sA with trace := sA.trace ++ [Event.compose ["logs", svc]] } with hsB
    obtain ⟨s', hrec, hpaths, hmem⟩ := ih sB
    refine ⟨s', ?_, ?_, ?_⟩
    · show (M.bind (opWrite (cfg.log_path ++ "/" ++ svc ++ ".log")) fun _ =>
        M.bind (composeLog svc) fun _ => saveLogsLoop cfg rest) env s = _
      rw [M.bind_ok hw, M.bind_ok hl]
      exact hrec
    · rw [hpaths, hsB, hsA]
      simp [writeLogPaths_append, writeLogPaths]
    · intro e he
      apply hmem
      have htr : sB.trace = (s.trace ++
          [Event.writeLog (cfg.log_path ++ "/" ++ svc ++ ".log")])
          ++ [Event.compose ["logs", svc]] := rfl
      rw [htr]
      exact List.mem_append.mpr (Or.inl (List.mem_append.mpr (Or.inl he)))

theorem composeGetServices_eval {env : Env} {s : St} (h1 : env.ki s.ops = false) :
    composeGetServices env s =
      ({ incOps s with trace := s.trace ++ [Event.compose ["ps", "--services"]] },
       Res.ok (servicesAt env s.ops)) := by
  unfold composeGetServices
  rw [M.bind_ok (opCmdPipe_eval h1)]
  rfl

/-- The stop-then-down tail of the shutdown body: whatever the exit codes,
it never raises KeyboardInterrupt, writes no log file, and keeps the trace
it was given. -/
theorem stopDown_eval {cfg : Cfg} {env : Env} (hall : ∀ j, env.ki j = false) (s : St) :
    ∃ s' r, (M.bind composeStop fun _ => composeDown) env s = (s', r) ∧
      r ≠ Res.exc Exc.keyboardInterrupt ∧
      writeLogPaths s'.trace = writeLogPaths s.trace ∧
      (∀ e ∈ s.trace, e ∈ s'.trace) := by
  have hstop : composeStop env s =
      (if env.cmdExit s.ops > 0 then
        ({ incOps s with trace := s.trace ++ [Event.compose ["stop"]] },
         Res.exc (.runtimeError "docker-compose stop failed"))
      else
        ({ incOps s with trace := s.trace ++ [Event.compose ["stop"]] },
         Res.ok ())) := by
    unfold composeStop
    rw [M.bind_ok (opCmd_eval (hall _))]
    split <;> rfl
  by_cases he1 : env.cmdExit s.ops > 0
  · rw [if_pos he1] at hstop
    refine ⟨_, _, M.bind_exc hstop, by simp, ?_, ?_⟩
    · simp [writeLogPaths_append, writeLogPaths]
    · intro e he
      show e ∈ s.trace ++ [Event.compose ["stop"]]
      exact List.mem_append.mpr (Or.inl he)
  · rw [if_neg he1] at hstop
    set sS : St := { incOps s with trace := s.trace ++ [Event.compose ["stop"]] } with hsS
    have hdown : composeDown env sS =
        (if env.cmdExit sS.ops > 0 then
          ({ incOps sS with trace := sS.trace ++ [Event.compose ["down", "--volumes"]] },
           Res.exc (.runtimeError "docker-compose down failed"))
        else
          ({ incOps sS with trace := sS.trace ++ [Event.compose ["down", "--volumes"]] },
           Res.ok ())) := by
      unfold composeDown
      rw [M.bind_ok (opCmd_eval (hall _))]
      split <;> rfl
    by_cases he2 : env.cmdExit sS.ops > 0
    · rw [if_pos he2] at hdown
      refine ⟨{ incOps sS with trace := sS.trace ++ [Event.compose ["down", "--volumes"]] },
        Res.exc (.runtimeError "docker-compose down failed"), ?_, by simp, ?_, ?_⟩
      · rw [M.bind_ok hstop]; exact hdown
      · show writeLogPaths (sS.trace ++ [Event.compose ["down", "--volumes"]]) = _
        rw [hsS]
        simp [writeLogPaths_append, writeLogPaths]
      · intro e he
        show e ∈ sS.trace ++ [Event.compose ["down", "--volumes"]]
        refine List.mem_append.mpr (Or.inl ?_)
        show e ∈ s.trace ++ [Event.compose ["stop"]]
        exact List.mem_append.mpr (Or.inl he)
    · rw [if_neg he2] at hdown
      refine ⟨{ incOps sS with trace := sS.trace ++ [Event.compose ["down", "--volumes"]] },
        Res.ok (), ?_, by simp, ?_, ?_⟩
      · rw [M.bind_ok hstop]; exact hdown
      · show writeLogPaths (sS.trace ++ [Event.compose ["down", "--volumes"]]) = _
        rw [hsS]
        simp [writeLogPaths_append, writeLogPaths]
      · intro e he
        show e ∈ sS.trace ++ [Event.compose ["down", "--volumes"]]
        refine List.mem_append.mpr (Or.inl ?_)
        show e ∈ s.trace ++ [Event.compose ["stop"]]
        exact List.mem_append.mpr (Or.inl he)

theorem tryCatchExc_ok {α : Type} {m : M α} {handler : Exc → M α} {env : Env}
    {s s' : St} {a : α} (h : m env s = (s', Res.ok a)) :
    tryCatchExc m handler env s = (s', Res.ok a) := by
  simp [tryCatchExc, h]

/-- Deterministic run of the _shutdown body when logging is enabled and no
interrupt arrives: the log directory is created when missing and one log
file is opened per service name reported by get_services; the stop and down
commands never raise KeyboardInterrupt. -/
theorem shutdownBody_logs_eval {cfg : Cfg} {env : Env}
    (hall : ∀ j, env.ki j = false) (hnl : lowerIn1True cfg.no_logs = false)
    (s : St) :
    ∃ s' r, shutdownBody cfg env s = (s', r) ∧
      r ≠ Res.exc Exc.keyboardInterrupt ∧
      writeLogPaths s'.trace = writeLogPaths s.trace ++
        (servicesAt env (s.ops + (if s.logDirExists then 0 else 1))).map
          (fun svc => cfg.log_path ++ "/" ++ svc ++ ".log") ∧
      (s.logDirExists = false → Event.makedirs cfg.log_path ∈ s'.trace) := by
  by_cases hdir : s.logDirExists = true
  · have hdirstep : (M.bind readLogDirExists fun ex =>
        if ex then M.pure () else opMakedirs cfg.log_path) env s = (s, Res.ok ()) := by
      rw [M.bind_ok (show readLogDirExists env s = (s, Res.ok s.logDirExists) from rfl)]
      rw [hdir]
      rfl
    obtain ⟨sL, hrec, hpaths, hmem⟩ := saveLogsLoop_eval hall (servicesAt env s.ops)
      ({ incOps s with trace := s.trace ++ [Event.compose ["ps", "--services"]] })
    have hinner : (M.bind composeGetServices (saveLogsLoop cfg)) env s = (sL, Res.ok ()) := by
      rw [M.bind_ok (composeGetServices_eval (hall _))]
      exact hrec
    obtain ⟨s', r, heq, hki, hwl, hmemf⟩ := @stopDown_eval cfg env hall sL
    refine ⟨s', r, ?_, hki, ?_, ?_⟩
    · show (M.bind (if lowerIn1True cfg.no_logs then M.pure ()
        else M.bind (M.bind readLogDirExists fun ex =>
          if ex then M.pure () else opMakedirs cfg.log_path) fun _ =>
          tryCatchExc (M.bind composeGetServices (saveLogsLoop cfg)) fun _ => M.pure ())
        fun _ => M.bind composeStop fun _ => composeDown) env s = (s', r)
      rw [M.bind_ok (show (if lowerIn1True cfg.no_logs then M.pure ()
        else M.bind (M.bind readLogDirExists fun ex =>
          if ex then M.pure () else opMakedirs cfg.log_path) fun _ =>
          tryCatchExc (M.bind composeGetServices (saveLogsLoop cfg)) fun _ => M.pure ()) env s
          = (sL, Res.ok ()) by
        rw [if_neg (by simp [hnl])]
        rw [M.bind_ok hdirstep]
        exact tryCatchExc_ok hinner)]
      exact heq
    · rw [hwl, hpaths, hdir]
      simp [writeLogPaths_append, writeLogPaths]
    · intro hfalse; rw [hfalse] at hdir; exact absurd hdir (by simp)
  · replace hdir : s.logDirExists = false := by simpa using hdir
    have hmk : opMakedirs cfg.log_path env s =
        ({ incOps s with
            trace := s.trace ++ [Event.makedirs cfg.log_path]
            logDirExists := true }, Res.ok ()) := by
      unfold opMakedirs; simp [hall]
    set sD : St := { incOps s with
      trace := s.trace ++ [Event.makedirs cfg.log_path]
      logDirExists := true } with hsD
    have hdirstep : (M.bind readLogDirExists fun ex =>
        if ex then M.pure () else opMakedirs cfg.log_path) env s = (sD, Res.ok ()) := by
      rw [M.bind_ok (show readLogDirExists env s = (s, Res.ok s.logDirExists) from rfl)]
      rw [hdir]
      exact hmk
    obtain ⟨sL, hrec, hpaths, hmem⟩ := saveLogsLoop_eval hall (servicesAt env sD.ops)
      ({ incOps sD with trace := sD.trace ++ [Event.compose ["ps", "--services"]] })
    have hinner : (M.bind composeGetServices (saveLogsLoop cfg)) env sD = (sL, Res.ok ()) := by
      rw [M.bind_ok (composeGetServices_eval (hall _))]
      exact hrec
    obtain ⟨s', r, heq, hki, hwl, hmemf⟩ := @stopDown_eval cfg env hall sL
    refine ⟨s', r, ?_, hki, ?_, ?_⟩
    · show (M.bind (if lowerIn1True cfg.no_logs then M.pure ()
        else M.bind (M.bind readLogDirExists fun ex =>
          if ex then M.pure () else opMakedirs cfg.log_path) fun _ =>
          tryCatchExc (M.bind composeGetServices (saveLogsLoop cfg)) fun _ => M.pure ())
        fun _ => M.bind composeStop fun _ => composeDown) env s = (s', r)
      rw [M.bind_ok (show (if lowerIn1True cfg.no_logs then M.pure ()
        else M.bind (M.bind readLogDirExists fun ex =>
          if ex then M.pure () else opMakedirs cfg.log_path) fun _ =>
          tryCatchExc (M.bind composeGetServices (saveLogsLoop cfg)) fun _ => M.pure ()) env s
          = (sL, Res.ok ()) by
        rw [if_neg (by simp [hnl])]
        rw [M.bind_ok hdirstep]
        exact tryCatchExc_ok hinner)]
      exact heq
    · rw [hwl, hpaths, hdir]
      have : sD.ops = s.ops + 1 := rfl
      rw [this, hsD]
      simp [writeLogPaths_append, writeLogPaths]
    · intro hfalse
      apply hmemf
      apply hmem
      show Event.makedirs cfg.log_path ∈ sD.trace ++ [Event.compose ["ps", "--services"]]
      refine List.mem_append.mpr (Or.inl ?_)
      show Event.makedirs cfg.log_path ∈ s.trace ++ [Event.makedirs cfg.log_path]
      exact List.mem_append.mpr (Or.inr (List.mem_singleton.mpr rfl))

/-- C7: log retrieval happens during teardown.  When NO_LOGS lowercases to
1 or true, no _shutdown of any depth writes a log file.  Otherwise (shown
for uninterrupted runs), _shutdown creates log_path when it does not exist
and opens exactly one log file per service name returned by
DockerCompose.get_services, named log_path/service.log, in order. -/
theorem shutdown_log_retrieval :
    ∀ (cfg : Cfg) (env : Env) (s : St) (fuel : Nat),
      (lowerIn1True cfg.no_logs = true →
        writeLogPaths ((shutdown cfg fuel env s).1.trace) = writeLogPaths s.trace) ∧
      (lowerIn1True cfg.no_logs = false → (∀ j, env.ki j = false) →
        writeLogPaths ((shutdown cfg (fuel + 1) env s).1.trace) =
          writeLogPaths s.trace ++
            (servicesAt env (s.ops + (if s.logDirExists then 0 else 1))).map
              (fun svc => cfg.log_path ++ "/" ++ svc ++ ".log") ∧
        (s.logDirExists = false →
          Event.makedirs cfg.log_path ∈ (shutdown cfg (fuel + 1) env s).1.trace)) := by
  intro cfg env s fuel
  constructor
  · intro hnl
    obtain ⟨δ, h3, h4⟩ := shutdown_emitsOnly
      (M.frame_emitsOnly (shutdownBody_noLogs_frame hnl))
      (fun b => trivial) fuel env s
    rw [h3, writeLogPaths_append, writeLogPaths_of_notWriteLog h4, List.append_nil]
  · intro hnl hall
    obtain ⟨s', r, heq, hki, hwl, hmk⟩ :=
      shutdownBody_logs_eval hall hnl (shutdownEnterSt s)
    have hstate : (shutdown cfg (fuel + 1) env s).1 = s' := by
      rw [shutdown_succ, heq]
      cases r with
      | ok a => rfl
      | spin => rfl
      | exc e =>
        cases e <;> first
          | rfl
          | exact absurd rfl hki
    have henter : writeLogPaths (shutdownEnterSt s).trace = writeLogPaths s.trace := by
      show writeLogPaths (s.trace ++ [Event.shutdownEnter s.forced_shutdown]) = _
      simp [writeLogPaths_append, writeLogPaths]
    have hops : (shutdownEnterSt s).ops = s.ops := rfl
    have hdir : (shutdownEnterSt s).logDirExists = s.logDirExists := rfl
    constructor
    · rw [hstate, hwl, henter, hops, hdir]
    · intro hfalse
      rw [hstate]
      exact hmk (by rw [hdir, hfalse])

/-- A world that reports two services, web and db. -/
def envLogs : Env :=
  { timeAt := fun _ => 0, ki := fun _ => false,
    cmdExit := fun _ => 0, cmdOut := fun _ => "web\ndb", inspect := fun _ => none }

theorem shutdown_log_retrieval_witness :
    writeLogPaths ((shutdown cfgW 1 envLogs stW).1.trace) =
      writeLogPaths stW.trace ++
        (servicesAt envLogs (stW.ops + (if stW.logDirExists then 0 else 1))).map
          (fun svc => cfgW.log_path ++ "/" ++ svc ++ ".log") ∧
    Event.makedirs cfgW.log_path ∈ (shutdown cfgW 1 envLogs stW).1.trace :=
  have h := (shutdown_log_retrieval cfgW envLogs stW 0).2 rfl (fun j => rfl)
  ⟨h.1, h.2 rfl⟩

theorem M.bind_ok_inv {α β : Type} {m : M α} {f : α → M β} {env : Env} {s : St}
    {b : β} (h : (M.bind m f env s).2 = Res.ok b) :
    ∃ a s', m env s = (s', Res.ok a) ∧ (f a env s').2 = Res.ok b := by
  rcases hres : m env s with ⟨s', r⟩
  simp only [M.bind, hres] at h
  cases r with
  | ok a => exact ⟨a, s', rfl, h⟩
  | exc e => cases h
  | spin => cases h

/-- DCGoss.run returns 0 from its body only by reaching the final return. -/
theorem runBody_ok_zero {cfg : Cfg} {svc : String} {fuel : Nat} {env : Env}
    {s : St} {m : Int} (h : (runBody cfg svc fuel env s).2 = Res.ok m) : m = 0 := by
  unfold runBody at h
  obtain ⟨a1, s1, h1, h⟩ := M.bind_ok_inv h
  obtain ⟨a2, s2, h2, h⟩ := M.bind_ok_inv h
  obtain ⟨a3, s3, h3, h⟩ := M.bind_ok_inv h
  simp only [M.pure] at h
  cases h; rfl

/-- DCGoss.edit returns 0 from its body only by reaching the final return. -/
theorem editBody_ok_zero {cfg : Cfg} {svc : String} {fuel : Nat} {env : Env}
    {s : St} {m : Int} (h : (editBody cfg svc fuel env s).2 = Res.ok m) : m = 0 := by
  unfold editBody at h
  obtain ⟨a1, s1, h1, h⟩ := M.bind_ok_inv h
  obtain ⟨cid, s2, h2, h⟩ := M.bind_ok_inv h
  cases cid with
  | none => simp [M.throw] at h
  | some c =>
    obtain ⟨a3, s3, h3, h⟩ := M.bind_ok_inv h
    obtain ⟨a4, s4, h4, h⟩ := M.bind_ok_inv h
    simp only [M.pure] at h
    cases h; rfl

theorem tryFinallyM_snd {α : Type} {m : M α} {fin : M Unit} {env : Env} {s : St}
    (hns : (m env s).2 ≠ Res.spin)
    (hfin : (fin env (m env s).1).2 = Res.ok ()) :
    (tryFinallyM m fin env s).2 = (m env s).2 := by
  rcases hres : m env s with ⟨s', r⟩
  rw [hres] at hns hfin
  rcases hf : fin env s' with ⟨s'', rf⟩
  rw [hf] at hfin
  simp only at hfin
  subst hfin
  cases r with
  | spin => exact absurd rfl hns
  | ok a => simp [tryFinallyM, hres, hf]
  | exc e => simp [tryFinallyM, hres, hf]

/-- C9 counterexample: a run whose body succeeds entirely (returning 0) but
whose teardown stop command exits with code 5; the RuntimeError raised
inside _shutdown escapes the finally clause, so run propagates an exception
to its caller instead of returning 0, 1 or 2. -/
def env9 : Env :=
  { timeAt := fun _ => 0, ki := fun _ => false,
    cmdExit := fun k => if k = 18 then 5 else 0,
    cmdOut := fun _ => "", inspect := fun _ => none }

section
attribute [local semireducible] Rat.sub

theorem run_return_codes_counterexample :
    (runBody cfgW "web" 3 env9 stW).2 = Res.ok 0 ∧
    (run cfgW "web" 3 env9 stW).2 =
      Res.exc (.runtimeError "docker-compose stop failed") := by
  decide

end

/-- C9 as amended: run and edit never propagate an exception raised in
their body, provided the final _shutdown completes without raising.  Under
that proviso, for every oracle behaviour: a body that returns yields 0, a
body that raises an Exception yields 1, and a body interrupted by
KeyboardInterrupt yields 2.  (An exception raised during the teardown
itself, including the SystemExit of a doubly-interrupted forced shutdown,
replaces the result and propagates, as the counterexample shows.) -/
theorem run_edit_return_codes_amended :
    ∀ (cfg : Cfg) (svc : String) (fuel : Nat) (env : Env) (s : St),
      ((shutdown cfg 2 env (runBody cfg svc fuel env s).1).2 = Res.ok () →
        (∀ m, (runBody cfg svc fuel env s).2 = Res.ok m →
          (run cfg svc fuel env s).2 = Res.ok 0) ∧
        (∀ e, (runBody cfg svc fuel env s).2 = Res.exc e → Exc.isException e = true →
          (run cfg svc fuel env s).2 = Res.ok 1) ∧
        ((runBody cfg svc fuel env s).2 = Res.exc .keyboardInterrupt →
          (run cfg svc fuel env s).2 = Res.ok 2)) ∧
      ((shutdown cfg 2 env (editBody cfg svc fuel env s).1).2 = Res.ok () →
        (∀ m, (editBody cfg svc fuel env s).2 = Res.ok m →
          (edit cfg svc fuel env s).2 = Res.ok 0) ∧
        (∀ e, (editBody cfg svc fuel env s).2 = Res.exc e → Exc.isException e = true →
          (edit cfg svc fuel env s).2 = Res.ok 1) ∧
        ((editBody cfg svc fuel env s).2 = Res.exc .keyboardInterrupt →
          (edit cfg svc fuel env s).2 = Res.ok 2)) := by
  intro cfg svc fuel env s
  constructor
  · intro hfin
    have hfin' : (shutdown cfg 2 env
        ((catchHandlers (runBody cfg svc fuel) env s).1)).2 = Res.ok () := by
      rw [catchHandlers_fst]; exact hfin
    refine ⟨?_, ?_, ?_⟩
    · intro m hb
      have hm : m = 0 := runBody_ok_zero hb
      subst hm
      rcases hres : runBody cfg svc fuel env s with ⟨s1, r1⟩
      rw [hres] at hb
      simp only at hb
      subst hb
      have hc : catchHandlers (runBody cfg svc fuel) env s = (s1, Res.ok 0) := by
        simp [catchHandlers, hres]
      show (tryFinallyM (catchHandlers (runBody cfg svc fuel)) (shutdown cfg 2) env s).2 = _
      rw [tryFinallyM_snd (by rw [hc]; simp) (by rw [hc]; rw [hc] at hfin'; exact hfin'), hc]
    · intro e hb hex
      rcases hres : runBody cfg svc fuel env s with ⟨s1, r1⟩
      rw [hres] at hb
      simp only at hb
      subst hb
      have hc : catchHandlers (runBody cfg svc fuel) env s = (s1, Res.ok 1) := by
        simp [catchHandlers, hres, hex]
      show (tryFinallyM (catchHandlers (runBody cfg svc fuel)) (shutdown cfg 2) env s).2 = _
      rw [tryFinallyM_snd (by rw [hc]; simp) (by rw [hc]; rw [hc] at hfin'; exact hfin'), hc]
    · intro hb
      rcases hres : runBody cfg svc fuel env s with ⟨s1, r1⟩
      rw [hres] at hb
      simp only at hb
      subst hb
      have hc : catchHandlers (runBody cfg svc fuel) env s = (s1, Res.ok 2) := by
        simp [catchHandlers, hres, Exc.isException]
      show (tryFinallyM (catchHandlers (runBody cfg svc fuel)) (shutdown cfg 2) env s).2 = _
      rw [tryFinallyM_snd (by rw [hc]; simp) (by rw [hc]; rw [hc] at hfin'; exact hfin'), hc]
  · intro hfin
    have hfin' : (shutdown cfg 2 env
        ((catchHandlers (editBody cfg svc fuel) env s).1)).2 = Res.ok () := by
      rw [catchHandlers_fst]; exact hfin
    refine ⟨?_, ?_, ?_⟩
    · intro m hb
      have hm : m = 0 := editBody_ok_zero hb
      subst hm
      rcases hres : editBody cfg svc fuel env s with ⟨s1, r1⟩
      rw [hres] at hb
      simp only at hb
      subst hb
      have hc : catchHandlers (editBody cfg svc fuel) env s = (s1, Res.ok 0) := by
        simp [catchHandlers, hres]
      show (tryFinallyM (catchHandlers (editBody cfg svc fuel)) (shutdown cfg 2) env s).2 = _
      rw [tryFinallyM_snd (by rw [hc]; simp) (by rw [hc]; rw [hc] at hfin'; exact hfin'), hc]
    · intro e hb hex
      rcases hres : editBody cfg svc fuel env s with ⟨s1, r1⟩
      rw [hres] at hb
      simp only at hb
      subst hb
      have hc : catchHandlers (editBody cfg svc fuel) env s = (s1, Res.ok 1) := by
        simp [catchHandlers, hres, hex]
      show (tryFinallyM (catchHandlers (editBody cfg svc fuel)) (shutdown cfg 2) env s).2 = _
      rw [tryFinallyM_snd (by rw [hc]; simp) (by rw [hc]; rw [hc] at hfin'; exact hfin'), hc]
    · intro hb
      rcases hres : editBody cfg svc fuel env s with ⟨s1, r1⟩
      rw [hres] at hb
      simp only at hb
      subst hb
      have hc : catchHandlers (editBody cfg svc fuel) env s = (s1, Res.ok 2) := by
        simp [catchHandlers, hres, Exc.isException]
      show (tryFinallyM (catchHandlers (editBody cfg svc fuel)) (shutdown cfg 2) env s).2 = _
      rw [tryFinallyM_snd (by rw [hc]; simp) (by rw [hc]; rw [hc] at hfin'; exact hfin'), hc]

/-- A world identical to env9 except that every teardown command succeeds. -/
def env9ok : Env :=
  { timeAt := fun _ => 0, ki := fun _ => false,
    cmdExit := fun _ => 0, cmdOut := fun _ => "", inspect := fun _ => none }

section
attribute [local semireducible] Rat.sub

theorem run_edit_return_codes_witness :
    (run cfgW "web" 3 env9ok stW).2 = Res.ok 0 :=
  ((run_edit_return_codes_amended cfgW "web" 3 env9ok stW).1 (by decide)).1 0 (by decide)

end

/-- The goss validate execution event for a given goss file. -/
def validateEv (cfg : Cfg) (svc gf : String) (extra : List String) : Event :=
  Event.compose (["exec", svc] ++ (["/goss/goss"] ++ gossArgsGlobal cfg gf
    ++ ["validate"] ++ extra))

/-- Whether an event is a goss validate execution for the given goss file. -/
def isValidateFor (cfg : Cfg) (svc gf : String) (e : Event) : Prop :=
  ∃ extra, e = validateEv cfg svc gf extra

/-- The goss render execution event for a given goss file. -/
def renderEv (cfg : Cfg) (svc gf : String) : Event :=
  Event.compose (["exec", svc] ++ (["/goss/goss"] ++ gossArgsGlobal cfg gf ++ ["render"]))

/-- Events of the startup polling loop: sleeps and container-id queries. -/
def pollEv (svc : String) (e : Event) : Prop :=
  (∃ d, e = Event.sleep d) ∨ e = Event.compose ["ps", "--quiet", svc]

/-- Events a _run_goss_validate call for the given goss file may emit. -/
def valAux (cfg : Cfg) (svc gf : String) (e : Event) : Prop :=
  pollEv svc e ∨ e = Event.compose ["restart", svc] ∨ e = renderEv cfg svc gf ∨
    isValidateFor cfg svc gf e

/-- The stabilization condition under which the _startup wait loop breaks,
for an iteration whose time() query runs at index k: the timeout has not
been exceeded, the service is up, the two start-time queries on either side
of the initial_startup sleep agree, and the service is still up after one
more second of sleep. -/
def breakReady (cfg : Cfg) (env : Env) (stime : Rat) (k : Nat) : Prop :=
  let k1 := k + 1
  let k2 := k1 + upOps env k1
  let k3 := k2 + upOps env k2
  let k4 := k3 + 1
  let k5 := k4 + upOps env k4
  let k6 := k5 + 1
  ¬ (env.timeAt k - stime > cfg.retry_timeout) ∧
  upAt env k1 = true ∧
  startAt env k2 = startAt env k4 ∧
  upAt env k6 = true

/-- The startup loop body breaks only when the stabilization condition held
at its iteration. -/
theorem startupIterBody_break_ready {cfg : Cfg} {svc : String} {env : Env}
    {s : St} (hall : ∀ j, env.ki j = false)
    (h : ((startupIterBody cfg svc) env s).2 = Res.ok true) :
    breakReady cfg env s.start_time s.ops := by
  have hto : ¬ env.timeAt s.ops - s.start_time > cfg.retry_timeout :=
    startupIterBody_ok_time h
  unfold startupIterBody at h
  rw [M.bind_ok (opTime_eval (hall _))] at h
  unfold startupIterRest at h
  rw [M.bind_ok (readStartTime_eval env (incOps s))] at h
  rw [if_neg (by simpa [incOps] using hto)] at h
  rw [M.bind_ok (isServiceUp_eval (hall _) (hall _))] at h
  by_cases hup : upAt env ((incOps s).ops) = true
  · rw [if_neg (by simp [hup])] at h
    rw [M.bind_ok (getStartTimeSvc_eval (hall _) (hall _))] at h
    rw [M.bind_ok (opSleep_eval (hall _))] at h
    rw [M.bind_ok (getStartTimeSvc_eval (hall _) (hall _))] at h
    by_cases hss : startAt env ((incOps s).ops + upOps env ((incOps s).ops)) =
        startAt env ((incOps s).ops + upOps env ((incOps s).ops) +
          upOps env ((incOps s).ops + upOps env ((incOps s).ops)) + 1)
    · rw [if_pos (by simpa [incOps] using hss)] at h
      rw [M.bind_ok (opSleep_eval (hall _))] at h
      rw [M.bind_ok (isServiceUp_eval (hall _) (hall _))] at h
      simp only [M.pure] at h
      refine ⟨hto, by simpa [incOps] using hup, by simpa [incOps] using hss, ?_⟩
      simpa [incOps, breakReady] using h
    · rw [if_neg (by simpa [incOps] using hss)] at h
      simp [M.pure] at h
  · rw [if_pos (by simp [hup])] at h
    rw [M.bind_ok (opSleep_eval (hall _))] at h
    simp [M.pure] at h

/-- The startup loop reaches its break only through the stabilization
condition at some iteration. -/
theorem startupLoop_ok_break_ready {cfg : Cfg} {svc : String} {env : Env}
    (hall : ∀ j, env.ki j = false) :
    ∀ (fuel : Nat) (s : St), ((startupLoop cfg svc fuel) env s).2 = Res.ok () →
      ∃ k, s.ops ≤ k ∧ breakReady cfg env s.start_time k := by
  intro fuel
  induction fuel with
  | zero => intro s h; simp [startupLoop, M.spinOut] at h
  | succ n ih =>
    intro s h
    replace h : ((M.bind (startupIterBody cfg svc) fun brk =>
      if brk then M.pure () else startupLoop cfg svc n) env s).2 = Res.ok () := h
    rcases hb : startupIterBody cfg svc env s with ⟨s', r⟩
    rw [M.bind] at h
    rw [hb] at h
    cases r with
    | exc e => simp at h
    | spin => simp at h
    | ok b =>
      cases b with
      | true =>
        exact ⟨s.ops, le_refl _, startupIterBody_break_ready hall (by rw [hb])⟩
      | false =>
        simp only [Bool.false_eq_true, if_false] at h
        obtain ⟨k, hk, hbr⟩ := ih s' h
        have hst : s'.start_time = s.start_time := by
          have := @keepsStart_startupIterBody cfg svc env s
          rw [hb] at this; exact this
        have hops : s.ops ≤ s'.ops := by
          have := startupIterBody_ops cfg svc env s
          rw [hb] at this; dsimp only at this; omega
        rw [hst] at hbr
        exact ⟨k, le_trans hops hk, hbr⟩

theorem M.bind_ok_pair_inv {α β : Type} {m : M α} {f : α → M β} {env : Env}
    {s s'' : St} {b : β} (h : M.bind m f env s = (s'', Res.ok b)) :
    ∃ a s', m env s = (s', Res.ok a) ∧ f a env s' = (s'', Res.ok b) := by
  rcases hres : m env s with ⟨s', r⟩
  rw [M.bind] at h
  rw [hres] at h
  cases r with
  | ok a => exact ⟨a, s', rfl, h⟩
  | exc e => cases h
  | spin => cases h

theorem setStartTime_eval (t : Rat) (env : Env) (s : St) :
    setStartTime t env s = ({ s with start_time := t }, Res.ok ()) := rfl

theorem composeDown_ok {env : Env} {s s' : St} {u : Unit}
    (hk : env.ki s.ops = false) (h : composeDown env s = (s', Res.ok u)) :
    s' = { incOps s with trace := s.trace ++ [Event.compose ["down", "--volumes"]] } := by
  unfold composeDown at h
  rw [M.bind_ok (opCmd_eval hk)] at h
  split at h
  · exact absurd h (by simp [M.throw])
  · simp only [M.pure, Prod.mk.injEq] at h
    exact h.1.symm

theorem composeUp_ok {env : Env} {svc : String} {s s' : St} {u : Unit}
    (hk : env.ki s.ops = false) (h : composeUp svc env s = (s', Res.ok u)) :
    s' = { incOps s with trace := s.trace ++ [Event.compose ["up", "-d", svc]] } := by
  unfold composeUp at h
  rw [M.bind_ok (opCmd_eval hk)] at h
  split at h
  · exact absurd h (by simp [M.throw])
  · simp only [M.pure, Prod.mk.injEq] at h
    exact h.1.symm

theorem dockerCpCmd_ok {env : Env} {src tgt : String} {s s' : St} {u : Unit}
    (hk : env.ki s.ops = false) (h : dockerCpCmd src tgt env s = (s', Res.ok u)) :
    s' = { incOps s with trace := s.trace ++ [Event.dockerCp src tgt] } := by
  unfold dockerCpCmd at h
  rw [M.bind_ok (opCmd_eval hk)] at h
  split at h
  · exact absurd h (by simp [M.throw])
  · simp only [M.pure, Prod.mk.injEq] at h
    exact h.1.symm

/-- Shape of a successful _startup: remove previous resources, bring the
service up, poll (sleeps and container-id queries only) until the
stabilization condition holds at some iteration, then query the container
id and docker cp the staged directory into the container.  The recorded
start_time is the time() reading taken at entry. -/
theorem startup_ok_shape {cfg : Cfg} {svc : String} {fuel : Nat} {env : Env}
    {s0 sF : St} (hall : ∀ j, env.ki j = false)
    (h : startup cfg svc fuel env s0 = (sF, Res.ok ())) :
    ∃ tPoll cid,
      sF.trace = s0.trace ++ Event.compose ["down", "--volumes"] ::
        Event.compose ["up", "-d", svc] ::
        (tPoll ++ [Event.compose ["ps", "--quiet", svc],
          Event.dockerCp "tempdir" (cid ++ ":/goss")]) ∧
      (∀ e ∈ tPoll, pollEv svc e) ∧
      (∃ k, breakReady cfg env (env.timeAt s0.ops) k) ∧
      sF.start_time = env.timeAt s0.ops := by
  unfold startup at h
  rw [M.bind_ok (opTime_eval (hall _))] at h
  rw [M.bind_ok (setStartTime_eval _ env (incOps s0))] at h
  obtain ⟨u1, sA, hdown, h⟩ := M.bind_ok_pair_inv h
  have hA := composeDown_ok (hall _) hdown
  subst hA
  obtain ⟨u2, sB, hup, h⟩ := M.bind_ok_pair_inv h
  have hB := composeUp_ok (hall _) hup
  subst hB
  obtain ⟨u3, sC, hloop, h⟩ := M.bind_ok_pair_inv h
  rw [M.bind_ok (composeGetContainerId_eval (hall _))] at h
  unfold copyInM at h
  have hF := dockerCpCmd_ok (hall _) h
  subst hF
  obtain ⟨hcf, hco, δpoll, hctr, hcP⟩ :=
    @frame_startupLoop (pollEv svc) cfg svc
      (Or.inr rfl) (Or.inl ⟨1, rfl⟩) (Or.inl ⟨cfg.initial_startup, rfl⟩) fuel env _
  rw [hloop] at hctr
  obtain ⟨k, hk, hbr⟩ := startupLoop_ok_break_ready hall fuel _ (by rw [hloop])
  have hCs : sC.start_time = env.timeAt s0.ops := by
    have := @keepsStart_startupLoop cfg svc fuel env
      ({ incOps ({ incOps ({ incOps s0 with start_time := env.timeAt s0.ops }) with
          trace := ({ incOps s0 with start_time := env.timeAt s0.ops }).trace
            ++ [Event.compose ["down", "--volumes"]] }) with
          trace := ({ incOps ({ incOps s0 with start_time := env.timeAt s0.ops }) with
            trace := ({ incOps s0 with start_time := env.timeAt s0.ops }).trace
              ++ [Event.compose ["down", "--volumes"]] }).trace
            ++ [Event.compose ["up", "-d", svc]] })
    rw [hloop] at this
    simpa [incOps] using this
  refine ⟨δpoll, pyStr (cidAt env sC.ops), ?_, hcP, ⟨k, ?_⟩, ?_⟩
  · show (({ incOps sC with trace := sC.trace ++ [Event.compose ["ps", "--quiet", svc]] }).trace
      ++ [Event.dockerCp "tempdir" (pyStr (cidAt env sC.ops) ++ ":/goss")]) = _
    dsimp only
    rw [hctr]
    simp [incOps]
  · have hBs : ({ incOps ({ incOps ({ incOps s0 with start_time := env.timeAt s0.ops }) with
        trace := ({ incOps s0 with start_time := env.timeAt s0.ops }).trace
          ++ [Event.compose ["down", "--volumes"]] }) with
        trace := ({ incOps ({ incOps s0 with start_time := env.timeAt s0.ops }) with
          trace := ({ incOps s0 with start_time := env.timeAt s0.ops }).trace
            ++ [Event.compose ["down", "--volumes"]] }).trace
          ++ [Event.compose ["up", "-d", svc]] }).start_time = env.timeAt s0.ops := by
      simp [incOps]
    rwa [hBs] at hbr
  · show ({ incOps ({ incOps sC with
      trace := sC.trace ++ [Event.compose ["ps", "--quiet", svc]] }) with
      trace := ({ incOps sC with
        trace := sC.trace ++ [Event.compose ["ps", "--quiet", svc]] }).trace
        ++ [Event.dockerCp "tempdir" (pyStr (cidAt env sC.ops) ++ ":/goss")] }).start_time = _
    simpa [incOps] using hCs

/-- Every validate loop iteration that produces a value executed goss
validate: the execution event heads its trace contribution. -/
theorem validateIterBody_ok_trace {cfg : Cfg} {svc : String}
    {argsG gossArgs : List String} {env : Env} {s sy : St} {b : Bool}
    (hall : ∀ j, env.ki j = false)
    (h : validateIterBody cfg svc argsG gossArgs env s = (sy, Res.ok b)) :
    ∃ δ, sy.trace = s.trace ++ Event.compose
      (["exec", svc] ++ (["/goss/goss"] ++ argsG ++ ["validate"] ++ gossArgs)) :: δ := by
  have hto : ¬ env.timeAt s.ops - s.start_time > cfg.retry_timeout :=
    validateIterBody_ok_time (by rw [h])
  unfold validateIterBody at h
  rw [M.bind_ok (opTime_eval (hall _))] at h
  unfold validateIterRest at h
  rw [M.bind_ok (readStartTime_eval env (incOps s))] at h
  rw [if_neg (by simpa [incOps] using hto)] at h
  unfold composeExecSvc at h
  rw [M.bind_ok (opCmd_eval (hall _))] at h
  set sE : St := { incOps (incOps s) with trace := (incOps s).trace ++
    [Event.compose (["exec", svc] ++ (["/goss/goss"] ++ argsG ++ ["validate"] ++ gossArgs))] }
    with hsE
  have hframe : M.frame (fun _ => True)
      ((fun e => if e > 0 then
          M.bind (opSleep cfg.retry_interval) fun _ =>
          M.bind (isServiceUp svc) fun up =>
          M.bind (if up = true then M.pure () else composeRestart svc) fun _ =>
          M.pure false
        else M.pure true) (env.cmdExit (incOps s).ops)) := by
    apply M.frame_ite
    · apply M.frame_bind (M.frame_opSleep trivial); intro u
      apply M.frame_bind (frame_isServiceUp trivial); intro up
      exact M.frame_bind
        (M.frame_ite (M.frame_pure _) (frame_composeRestart trivial))
        (fun u2 => M.frame_pure _)
    · exact M.frame_pure _
  obtain ⟨g1, g2, δ2, g3, g4⟩ := hframe env sE
  dsimp only at g3
  rw [h] at g3
  refine ⟨δ2, ?_⟩
  rw [show sy.trace = (sy, Res.ok b).1.trace from rfl, g3]
  simp [incOps]

/-- A successful validate loop contains at least one validate execution in
its trace contribution. -/
theorem validateLoop_ok_exec {cfg : Cfg} {svc : String}
    {argsG gossArgs : List String} {env : Env} {s : St} {fuel : Nat}
    (hall : ∀ j, env.ki j = false)
    (h : (validateLoop cfg svc argsG gossArgs fuel env s).2 = Res.ok ()) :
    ∃ δ, (validateLoop cfg svc argsG gossArgs fuel env s).1.trace =
        s.trace ++ Event.compose
          (["exec", svc] ++ (["/goss/goss"] ++ argsG ++ ["validate"] ++ gossArgs)) :: δ := by
  cases fuel with
  | zero => simp [validateLoop, M.spinOut] at h
  | succ n =>
    replace h : ((M.bind (validateIterBody cfg svc argsG gossArgs) fun brk =>
      if brk then M.pure () else validateLoop cfg svc argsG gossArgs n) env s).2 =
        Res.ok () := h
    have hloopeq : validateLoop cfg svc argsG gossArgs (n + 1) env s =
        (M.bind (validateIterBody cfg svc argsG gossArgs) fun brk =>
          if brk then M.pure () else validateLoop cfg svc argsG gossArgs n) env s := rfl
    rcases hb : validateIterBody cfg svc argsG gossArgs env s with ⟨s', r⟩
    rw [M.bind] at h hloopeq
    rw [hb] at h hloopeq
    cases r with
    | exc e => simp at h
    | spin => simp at h
    | ok b =>
      obtain ⟨δ1, hδ1⟩ := validateIterBody_ok_trace hall hb
      cases b with
      | true =>
        rw [hloopeq]
        exact ⟨δ1, by simpa [M.pure] using hδ1⟩
      | false =>
        simp only [Bool.false_eq_true, if_false] at h hloopeq
        obtain ⟨g1, g2, δ3, g3, g4⟩ :=
          @frame_validateLoop (fun _ => True) cfg svc argsG gossArgs
            trivial trivial trivial trivial n env s'
        rw [hloopeq, g3, hδ1]
        exact ⟨δ1 ++ δ3, by simp⟩

/-- A successful _run_goss_validate emits only its own auxiliary events
(sleeps, service polls, restarts, the render and validate executions for its
goss file), and executes goss validate for that file at least once. -/
theorem runGossValidate_ok_shape {cfg : Cfg} {svc gf : String}
    {gossArgs : List String} {fuel : Nat} {env : Env} {s0 sF : St}
    (hall : ∀ j, env.ki j = false)
    (h : runGossValidate cfg svc gf gossArgs fuel env s0 = (sF, Res.ok ())) :
    ∃ δ, sF.trace = s0.trace ++ δ ∧ (∀ e ∈ δ, valAux cfg svc gf e) ∧
      ∃ e ∈ δ, isValidateFor cfg svc gf e := by
  obtain ⟨g1, g2, δ, g3, g4⟩ :=
    @frame_runGossValidate (valAux cfg svc gf) cfg svc gf gossArgs
      (Or.inl (Or.inl ⟨cfg.retry_interval, rfl⟩))
      (Or.inr (Or.inr (Or.inl rfl)))
      (Or.inr (Or.inr (Or.inr ⟨gossArgs ++
        [if lowerIn1True cfg.no_color then "--no-color" else "--color"], rfl⟩)))
      (Or.inl (Or.inr rfl))
      (Or.inr (Or.inl rfl)) fuel env s0
  rw [h] at g3
  dsimp only at g3
  refine ⟨δ, g3, g4, ?_⟩
  unfold runGossValidate at h
  obtain ⟨u1, sA, hsl, h⟩ := M.bind_ok_pair_inv h
  obtain ⟨rr, sB, hrd, h⟩ := M.bind_ok_pair_inv h
  rw [opSleep_eval (hall _)] at hsl
  simp only [Prod.mk.injEq] at hsl
  obtain ⟨hsA, -⟩ := hsl
  subst hsA
  unfold composeExecPipeSvc at hrd
  rw [opCmdPipe_eval (hall _)] at hrd
  simp only [Prod.mk.injEq] at hrd
  obtain ⟨hsB, -⟩ := hrd
  subst hsB
  split at h
  · exact absurd h (by simp [M.throw])
  · have h2 := congrArg Prod.snd h
    dsimp only at h2
    obtain ⟨δL, hδL⟩ := validateLoop_ok_exec hall h2
    have h1 := congrArg Prod.fst h
    dsimp only at h1
    rw [h1] at hδL
    have hcat : s0.trace ++ δ = s0.trace ++
        (Event.sleep cfg.retry_interval ::
         Event.compose (["exec", svc] ++
           (["/goss/goss"] ++ gossArgsGlobal cfg gf ++ ["render"])) ::
         Event.compose (["exec", svc] ++ (["/goss/goss"] ++ gossArgsGlobal cfg gf
           ++ ["validate"] ++ (gossArgs ++
             [if lowerIn1True cfg.no_color then "--no-color" else "--color"]))) :: δL) := by
      rw [← g3, hδL]
      simp [incOps]
    have hδeq := List.append_cancel_left hcat
    refine ⟨Event.compose (["exec", svc] ++ (["/goss/goss"] ++ gossArgsGlobal cfg gf
      ++ ["validate"] ++ (gossArgs ++
        [if lowerIn1True cfg.no_color then "--no-color" else "--color"]))), ?_,
      ⟨gossArgs ++ [if lowerIn1True cfg.no_color then "--no-color" else "--color"], rfl⟩⟩
    rw [hδeq]
    exact List.mem_cons_of_mem _ (List.mem_cons_of_mem _ (List.mem_cons_self _ _))

/-- Events emitted by the wait-file validation phase are never validate
executions for the main goss file: their --gossfile markers differ. -/
theorem valAux_wait_not_main {cfg : Cfg} {svc : String} {e : Event}
    (h : valAux cfg svc "goss_wait.yaml" e) :
    ¬ isValidateFor cfg svc "goss.yaml" e := by
  rintro ⟨extra, rfl⟩
  rcases h with (⟨d, he⟩ | he) | he | he | ⟨ex2, he⟩
  · simp [validateEv] at he
  · simp [validateEv, gossArgsGlobal] at he
  · simp [validateEv, gossArgsGlobal] at he
  · simp [validateEv, renderEv, gossArgsGlobal] at he
  · simp [validateEv, gossArgsGlobal] at he

/-- C6: DCGoss.run performs its phases in a fixed order.  Whenever the try
body of run returns normally it returns 0, and its trace shows: first remove
previous resources and start the service, then poll (sleeps and container-id
queries only) until the stabilization condition holds at some iteration (the
container is up, its recorded start time is unchanged across the
initial_startup delay, and it is still up one second later), then query the
container id and copy the goss files into the running container, then — the
wait file existing — run the goss_wait.yaml validation entirely before the
goss.yaml validation: every event of the wait phase belongs to that phase
and none of them is a goss.yaml validate execution, each phase executes goss
validate for its own file at least once, and when the teardown then
completes cleanly DCGoss.run itself returns 0. -/
theorem run_phases_ordered {cfg : Cfg} {svc : String} {fuel : Nat} {env : Env}
    {s0 sF : St} {r : Int} (hall : ∀ j, env.ki j = false)
    (hwait : cfg.goss_wait_isfile = true)
    (h : runBody cfg svc fuel env s0 = (sF, Res.ok r)) :
    r = 0 ∧
    (∃ tPoll cid δw δm,
      sF.trace = s0.trace ++ Event.compose ["down", "--volumes"] ::
        Event.compose ["up", "-d", svc] ::
        (tPoll ++ Event.compose ["ps", "--quiet", svc] ::
          Event.dockerCp "tempdir" (cid ++ ":/goss") :: (δw ++ δm)) ∧
      (∀ e ∈ tPoll, pollEv svc e) ∧
      (∃ k, breakReady cfg env (env.timeAt s0.ops) k) ∧
      (∀ e ∈ δw, valAux cfg svc "goss_wait.yaml" e) ∧
      (∃ e ∈ δw, isValidateFor cfg svc "goss_wait.yaml" e) ∧
      (∀ e ∈ δw, ¬ isValidateFor cfg svc "goss.yaml" e) ∧
      (∃ e ∈ δm, isValidateFor cfg svc "goss.yaml" e)) ∧
    (∀ sS, shutdown cfg 2 env sF = (sS, Res.ok ()) →
      run cfg svc fuel env s0 = (sS, Res.ok 0)) := by
  have hbody := h
  unfold runBody at h
  obtain ⟨u1, s1, hstart, h⟩ := M.bind_ok_pair_inv h
  obtain ⟨u2, s2, hwv, h⟩ := M.bind_ok_pair_inv h
  obtain ⟨u3, s3, hmv, h⟩ := M.bind_ok_pair_inv h
  have hpure : s3 = sF ∧ r = 0 := by
    simp only [M.pure, Prod.mk.injEq, Res.ok.injEq] at h
    exact ⟨h.1, h.2.symm⟩
  obtain ⟨hsF, hr0⟩ := hpure
  subst hsF
  subst hr0
  rw [if_pos hwait] at hwv
  cases u1
  cases u2
  cases u3
  obtain ⟨tPoll, cid, htr1, hPoll, hbreak, hstime⟩ := startup_ok_shape hall hstart
  obtain ⟨δw, htrw, hwAux, hwEx⟩ := runGossValidate_ok_shape hall hwv
  obtain ⟨δm, htrm, hmAux, hmEx⟩ := runGossValidate_ok_shape hall hmv
  refine ⟨rfl, ⟨tPoll, cid, δw, δm, ?_, hPoll, hbreak, hwAux, hwEx,
    fun e he => valAux_wait_not_main (hwAux e he), hmEx⟩, ?_⟩
  · rw [htrm, htrw, htr1]
    simp
  · intro sS hS
    have hch : catchHandlers (runBody cfg svc fuel) env s0 = (s3, Res.ok 0) := by
      simp [catchHandlers, hbody]
    show tryFinallyM (catchHandlers (runBody cfg svc fuel)) (shutdown cfg 2) env s0 =
      (sS, Res.ok 0)
    simp [tryFinallyM, hch, hS]

/-- A configuration with a goss wait file present. -/
def cfg6 : Cfg :=
  { retry_timeout := 300, retry_interval := 1, initial_startup := 5,
    goss_vars_isfile := false, goss_wait_isfile := true,
    no_color := none, no_logs := none,
    goss_wait_opts := [], goss_opts := [], log_path := "logs" }

/-- A world in which every command succeeds at once and the container is
stably up with a constant start time. -/
def env6 : Env :=
  { timeAt := fun _ => 0, ki := fun _ => false,
    cmdExit := fun _ => 0, cmdOut := fun _ => "abc",
    inspect := fun _ =>
      some { running := some true, restarting := some false, startedAt := some 5 } }

section
attribute [local semireducible] Rat.sub

theorem run_phases_ordered_witness :
    (0 : Int) = 0 ∧
    (∃ tPoll cid δw δm,
      (runBody cfg6 "web" 1 env6 stW).1.trace = stW.trace ++
        Event.compose ["down", "--volumes"] ::
        Event.compose ["up", "-d", "web"] ::
        (tPoll ++ Event.compose ["ps", "--quiet", "web"] ::
          Event.dockerCp "tempdir" (cid ++ ":/goss") :: (δw ++ δm)) ∧
      (∀ e ∈ tPoll, pollEv "web" e) ∧
      (∃ k, breakReady cfg6 env6 (env6.timeAt stW.ops) k) ∧
      (∀ e ∈ δw, valAux cfg6 "web" "goss_wait.yaml" e) ∧
      (∃ e ∈ δw, isValidateFor cfg6 "web" "goss_wait.yaml" e) ∧
      (∀ e ∈ δw, ¬ isValidateFor cfg6 "web" "goss.yaml" e) ∧
      (∃ e ∈ δm, isValidateFor cfg6 "web" "goss.yaml" e)) ∧
    (∀ sS, shutdown cfg6 2 env6 (runBody cfg6 "web" 1 env6 stW).1 = (sS, Res.ok ()) →
      run cfg6 "web" 1 env6 stW = (sS, Res.ok 0)) :=
  run_phases_ordered (fun j => rfl) (by decide) (by decide)

end
